import Mathlib

set_option autoImplicit false

/-!
The persistence layer of the finance tracker, `models.go`.

A shallow embedding of `goport/src/finance/models.go`: the three string
enumerations with their `Scan` / `Value` methods, the four entities, the
schema manager `CreateTables` and the repository functions, all written over an
explicit handle for the `*gorm.DB` the Go code calls into.  A model of that
handle over a Postgres-like catalogue (`pg`) follows the definitions of the Go
code; the theorems come last.
-/

namespace Finance

/-! ## Values crossing the `database/sql` boundary -/

/-- A `time.Time`; `Time.zero` is the zero value `time.Time{}`. -/
structure Time where
  nsec : Int
  deriving DecidableEq, Repr

/-- The zero value `time.Time{}`. -/
def Time.zero : Time := ⟨0⟩

/-- A `float64`, kept as its bit pattern: the code never computes with one. -/
structure Float64 where
  bits : Nat
  deriving DecidableEq, Repr

/-- What an `interface{}` handed to `Scan` (a `driver.Value`) can hold. -/
inductive DriverValue
  | null
  | int64 (i : Int)
  | float64 (f : Float64)
  | bool (b : Bool)
  | bytes (b : List Nat)
  | str (s : String)
  | time (t : Time)
  deriving DecidableEq, Repr

/-- The dynamic type name Go prints for a value in a failed type assertion. -/
def DriverValue.goType : DriverValue → String
  | .null => "nil"
  | .int64 _ => "int64"
  | .float64 _ => "float64"
  | .bool _ => "bool"
  | .bytes _ => "[]uint8"
  | .str _ => "string"
  | .time _ => "time.Time"

/-- How a Go call ends: it returns, or it panics. -/
inductive Outcome (α : Type)
  | returned (a : α)
  | panicked (msg : String)
  deriving DecidableEq, Repr

/-- The single-value type assertion `value.(string)`. -/
def assertString : DriverValue → Outcome String
  | .str s => .returned s
  | v => .panicked ("interface conversion: interface \x7b\x7d is " ++ v.goType ++ ", not string")

/-! ## AccountType -/

/-- Go `type AccountType string`. -/
structure AccountType where
  val : String
  deriving DecidableEq, Repr

namespace AccountType

def CHECKING : AccountType := ⟨"checking"⟩
def SAVINGS : AccountType := ⟨"savings"⟩
def INVESTMENT : AccountType := ⟨"investment"⟩
def CREDIT_CARD : AccountType := ⟨"credit_card"⟩
def VIRTUAL : AccountType := ⟨"virtual"⟩

/-- The constants of the `const` block, in declaration order. -/
def constants : List AccountType := [CHECKING, SAVINGS, INVESTMENT, CREDIT_CARD, VIRTUAL]

/-- Go `func (u *AccountType) Scan(value interface{}) error`: the receiver after the
call and the returned error, or a panic. -/
def Scan (_u : AccountType) (value : DriverValue) : Outcome (AccountType × Option String) :=
  match assertString value with
  | .returned s => .returned (⟨s⟩, none)
  | .panicked msg => .panicked msg

/-- Go `func (u AccountType) Value() (driver.Value, error)`. -/
def Value (u : AccountType) : DriverValue × Option String := (.str u.val, none)

end AccountType

/-! ## Granularity -/

/-- Go `type Granularity string`. -/
structure Granularity where
  val : String
  deriving DecidableEq, Repr

namespace Granularity

def SEC : Granularity := ⟨"1sec"⟩
def MIN : Granularity := ⟨"1min"⟩
def FIVE_MIN : Granularity := ⟨"5min"⟩
def HOUR : Granularity := ⟨"1hour"⟩
def DAY : Granularity := ⟨"1day"⟩
def WEEK : Granularity := ⟨"1week"⟩
def MONTH : Granularity := ⟨"1month"⟩
def YEAR : Granularity := ⟨"1year"⟩

/-- The constants of the `const` block, in declaration order. -/
def constants : List Granularity := [SEC, MIN, FIVE_MIN, HOUR, DAY, WEEK, MONTH, YEAR]

/-- Go `func (u *Granularity) Scan(value interface{}) error`. -/
def Scan (_u : Granularity) (value : DriverValue) : Outcome (Granularity × Option String) :=
  match assertString value with
  | .returned s => .returned (⟨s⟩, none)
  | .panicked msg => .panicked msg

/-- Go `func (u Granularity) Value() (driver.Value, error)`. -/
def Value (u : Granularity) : DriverValue × Option String := (.str u.val, none)

end Granularity

/-! ## RecordType -/

/-- Go `type RecordType string`. -/
structure RecordType where
  val : String
  deriving DecidableEq, Repr

namespace RecordType

def DEPOSIT : RecordType := ⟨"deposit"⟩
def WITHDRAW : RecordType := ⟨"withdraw"⟩
def BALANCE_ADJUSTMENT : RecordType := ⟨"balance_adjustment"⟩

/-- The constants of the `const` block, in declaration order. -/
def constants : List RecordType := [DEPOSIT, WITHDRAW, BALANCE_ADJUSTMENT]

/-- Go `func (u *RecordType) Scan(value interface{}) error`. -/
def Scan (_u : RecordType) (value : DriverValue) : Outcome (RecordType × Option String) :=
  match assertString value with
  | .returned s => .returned (⟨s⟩, none)
  | .panicked msg => .panicked msg

/-- Go `func (u RecordType) Value() (driver.Value, error)`. -/
def Value (u : RecordType) : DriverValue × Option String := (.str u.val, none)

end RecordType

/-! ## Entities -/

/-- Go `type Account struct`; `ID` is a `uint64`. -/
structure Account where
  ID : Nat
  Name : String
  deriving DecidableEq, Repr

/-- Go `type Asset struct`; `ID` is a `uint64`. -/
structure Asset where
  ID : Nat
  Name : String
  Symbol : String
  ISIN : String
  Description : String
  deriving DecidableEq, Repr

/-- Go `type AssetValue struct`. -/
structure AssetValue where
  ID : Nat
  Asset : Asset
  AssetID : Nat
  BaseAsset : Finance.Asset
  BaseAssetID : Nat
  EvaluatedAt : Time
  Granularity : Granularity
  Open : Float64
  High : Float64
  Low : Float64
  Close : Float64
  Volume : Int
  deriving DecidableEq, Repr

/-- Go `type Record struct`; the Go field `Type` is spelled `Type_` here. -/
structure Record where
  ID : Nat
  Account : Account
  AccountID : Nat
  Asset : Asset
  AssetID : Nat
  Type_ : RecordType
  CreatedAt : Time
  Quantity : Int
  deriving DecidableEq, Repr

/-- The zero value `Account{}`. -/
def Account.zero : Account := ⟨0, ""⟩

/-- The zero value `Asset{}`. -/
def Asset.zero : Asset := ⟨0, "", "", "", ""⟩

/-- The struct whose address a call to `AutoMigrate` receives. -/
inductive Model
  | Account
  | Asset
  | AssetValue
  | Record
  deriving DecidableEq, Repr

/-! ## The `*gorm.DB` handle -/

/-- The failures a store reports. -/
inductive DbError
  | malformedSql (sql : String)
  | undefinedTable (table : String)
  | undefinedColumn (table column : String)
  | undefinedObject (type : String)
  | duplicateObject (type : String)
  | uniqueViolation (index : String)
  | notNullViolation (table column : String)
  | invalidEnumValue (type value : String)
  | stringTooLong (table column : String)
  | numericOutOfRange (table column : String)
  | inFailedTransaction
  | recordNotFound
  deriving DecidableEq, Repr

/-- The `Error` field of a `*gorm.DB`: one error, or `gorm.Errors`. -/
inductive GormError
  | single (e : DbError)
  | multiple (es : List DbError)
  deriving DecidableEq, Repr

/-- Go `func (s *DB) GetErrors() []error` of gorm, on the `Error` field. -/
def GetErrors : Option GormError → List DbError
  | some (.multiple es) => es
  | some (.single e) => [e]
  | none => []

/-- The calls `models.go` makes on `db.Raw`, over a store state `σ`.  A query
(`First`) reads the store; the other calls also hand back the store after them.
`First` and `Create` take the struct their pointer argument points at and give
back what the call leaves there. -/
structure Gorm (σ : Type) where
  Exec : σ → String → σ × Option GormError
  AutoMigrate : σ → Model → σ × Option GormError
  FirstAsset : σ → Asset → String → List DriverValue → Asset × Option GormError
  FirstAccount : σ → Account → String → List DriverValue → Account × Option GormError
  CreateAsset : σ → Asset → σ × Asset × Option GormError
  CreateAccount : σ → Account → σ × Account × Option GormError
  CreateRecord : σ → Record → σ × Record × Option GormError

/-! ## Schema manager and repository (`models.go`) -/

section Repository

variable {σ : Type}

/-- Go `func (db *DB) CreateTables()`: eight calls, every result dropped. -/
def CreateTables (Raw : Gorm σ) (db : σ) : σ :=
  let db := (Raw.Exec db "DROP TYPE IF EXISTS granularity CASCADE").1
  let db := (Raw.Exec db
    "CREATE TYPE granularity AS ENUM('1sec', '1min', '5min', '1hour', '1day', '1week', '1month', '1year')").1
  let db := (Raw.Exec db "DROP TYPE IF EXISTS record_type CASCADE").1
  let db := (Raw.Exec db "CREATE TYPE record_type AS ENUM('deposit', 'withdraw', 'balance_adjustment')").1
  let db := (Raw.AutoMigrate db Model.Account).1
  let db := (Raw.AutoMigrate db Model.Asset).1
  let db := (Raw.AutoMigrate db Model.AssetValue).1
  let db := (Raw.AutoMigrate db Model.Record).1
  db

/-- Go `func (db *DB) GetAssetBySymbol(symbol string) (Asset, error)`. -/
def GetAssetBySymbol (Raw : Gorm σ) (db : σ) (symbol : String) : Asset × Option String :=
  let asset := (Raw.FirstAsset db Asset.zero "symbol = ?" [.str symbol]).1
  if asset = Asset.zero then
    (asset, some ("Asset '" ++ symbol ++ "' not found"))
  else
    (asset, none)

/-- Go `func (db *DB) GetAssetByName(name string) (Asset, error)`. -/
def GetAssetByName (Raw : Gorm σ) (db : σ) (name : String) : Asset × Option String :=
  let asset := (Raw.FirstAsset db Asset.zero "name = ?" [.str name]).1
  if asset = Asset.zero then
    (asset, some ("Asset '" ++ name ++ "' not found"))
  else
    (asset, none)

/-- Go `func (db *DB) GetAccountByName(name string) (Account, error)`. -/
def GetAccountByName (Raw : Gorm σ) (db : σ) (name : String) : Account × Option String :=
  let account := (Raw.FirstAccount db Account.zero "name = ?" [.str name]).1
  if account = Account.zero then
    (account, some ("Account '" ++ name ++ "' not found"))
  else
    (account, none)

/-- Go `func (db *DB) InsertAsset(name string, description string) (Asset, []error)`,
with the store after the call. -/
def InsertAsset (Raw : Gorm σ) (db : σ) (name description : String) : σ × Asset × List DbError :=
  let asset : Asset := { ID := 0, Name := name, Symbol := "", ISIN := "", Description := description }
  let res := Raw.CreateAsset db asset
  (res.1, res.2.1, GetErrors res.2.2)

/-- Go `func (db *DB) InsertRecord(account, asset, recordType, createdAt, quantity) (Record, []error)`,
with the store after the call. -/
def InsertRecord (Raw : Gorm σ) (db : σ) (account : Account) (asset : Asset)
    (recordType : RecordType) (createdAt : Time) (quantity : Int) : σ × Record × List DbError :=
  let record : Record :=
    { ID := 0, Account := account, AccountID := 0, Asset := asset, AssetID := 0,
      Type_ := recordType, CreatedAt := createdAt, Quantity := quantity }
  let res := Raw.CreateRecord db record
  (res.1, res.2.1, GetErrors res.2.2)

/-- Go `func (db *DB) InsertAccount(name string) (Account, error)`, with the store
after the call. -/
def InsertAccount (Raw : Gorm σ) (db : σ) (name : String) : σ × Account × Option GormError :=
  let account : Account := { ID := 0, Name := name }
  let res := Raw.CreateAccount db account
  (res.1, res.2.1, res.2.2)

/-- A call on the handle that can change the store. -/
inductive Command
  | Exec (sql : String)
  | AutoMigrate (m : Model)
  | CreateAsset (a : Asset)
  | CreateAccount (a : Account)
  | CreateRecord (r : Record)
  deriving DecidableEq, Repr

/-- The handle `Raw` with a journal: every store-changing call is appended to
the journal with the error it came back with, then carried out by `Raw`. -/
def traced (Raw : Gorm σ) : Gorm (σ × List (Command × Option GormError)) where
  Exec := fun st sql =>
    let r := Raw.Exec st.1 sql
    ((r.1, st.2 ++ [(Command.Exec sql, r.2)]), r.2)
  AutoMigrate := fun st m =>
    let r := Raw.AutoMigrate st.1 m
    ((r.1, st.2 ++ [(Command.AutoMigrate m, r.2)]), r.2)
  FirstAsset := fun st out query args => Raw.FirstAsset st.1 out query args
  FirstAccount := fun st out query args => Raw.FirstAccount st.1 out query args
  CreateAsset := fun st a =>
    let r := Raw.CreateAsset st.1 a
    ((r.1, st.2 ++ [(Command.CreateAsset a, r.2.2)]), r.2.1, r.2.2)
  CreateAccount := fun st a =>
    let r := Raw.CreateAccount st.1 a
    ((r.1, st.2 ++ [(Command.CreateAccount a, r.2.2)]), r.2.1, r.2.2)
  CreateRecord := fun st rec =>
    let r := Raw.CreateRecord st.1 rec
    ((r.1, st.2 ++ [(Command.CreateRecord rec, r.2.2)]), r.2.1, r.2.2)

end Repository

/-! ## A model of the handle: gorm over a Postgres catalogue

The store `models.go` talks to is not part of the repository.  `pg` models it
as far as the code can observe it: enum types and tables with their columns,
the rows of the four tables, one sequence a table for the `AUTO_INCREMENT`
primary key, the unique indexes the struct tags declare (`gorm:"unique_index"`
on `Account.Name`, `Asset.Name`, `Asset.Symbol`, `Asset.ISIN`), and gorm's
conventions for `Create`: a zero primary key is filled from the sequence, a
belongs-to struct (`Record.Account`, `Record.Asset`) is saved first and its key
copied into the foreign-key field, and a zero `CreatedAt` is set to the current
time (`sql:"DEFAULT:current_timestamp"`). -/

/-- The words of a text, split at blanks; `cur` holds the word being read, reversed. -/
def wordsAux : List Char → List Char → List (List Char)
  | [], cur => if cur = [] then [] else [cur.reverse]
  | c :: cs, cur =>
    if c = ' ' then (if cur = [] then wordsAux cs [] else cur.reverse :: wordsAux cs [])
    else wordsAux cs (c :: cur)

/-- The words of a text, split at blanks. -/
def words (s : String) : List String := (wordsAux s.data []).map String.mk

/-- The texts between single quotes; `cur` is `some` inside a quoted text. -/
def quotedAux : List Char → Option (List Char) → List (List Char)
  | [], _ => []
  | c :: cs, none => if c = '\'' then quotedAux cs (some []) else quotedAux cs none
  | c :: cs, some cur =>
    if c = '\'' then cur.reverse :: quotedAux cs none else quotedAux cs (some (c :: cur))

/-- The texts between single quotes. -/
def quoted (s : String) : List String := (quotedAux s.data none).map String.mk

/-- Postgres folds an unquoted identifier to lower case. -/
def foldIdent (s : String) : String := String.mk (s.data.map Char.toLower)

/-- The two statements `CreateTables` sends through `Exec`. -/
inductive Sql
  | dropTypeIfExistsCascade (name : String)
  | createEnum (name : String) (labels : List String)
  deriving DecidableEq, Repr

/-- Reads `CREATE TYPE <name> AS ENUM(<quoted labels>)`. -/
def parseCreateEnum (sql : String) : Option Sql :=
  match words sql with
  | w1 :: w2 :: name :: w4 :: w5 :: _ =>
    if w1 = "CREATE" ∧ w2 = "TYPE" ∧ w4 = "AS" ∧ w5.data.take 5 = "ENUM(".data
        ∧ sql.data.getLast? = some ')' then
      some (.createEnum (foldIdent name) (quoted sql))
    else none
  | _ => none

/-- Reads `DROP TYPE IF EXISTS <name> CASCADE` or a `CREATE TYPE ... AS ENUM`. -/
def parseSql (sql : String) : Option Sql :=
  match words sql with
  | [w1, w2, w3, w4, name, w6] =>
    if w1 = "DROP" ∧ w2 = "TYPE" ∧ w3 = "IF" ∧ w4 = "EXISTS" ∧ w6 = "CASCADE" then
      some (.dropTypeIfExistsCascade (foldIdent name))
    else parseCreateEnum sql
  | _ => parseCreateEnum sql

/-- A column of a table: its name and its type. -/
structure Column where
  name : String
  type : String
  deriving DecidableEq, Repr

/-- A table of the catalogue. -/
structure Table where
  name : String
  columns : List Column
  deriving DecidableEq, Repr

/-- A row of `asset_values`; the prices are `decimal(10,4)`, kept in ten-thousandths. -/
structure AssetValueRow where
  ID : Nat
  AssetID : Nat
  BaseAssetID : Nat
  EvaluatedAt : Time
  Granularity : String
  Open : Int
  High : Int
  Low : Int
  Close : Int
  Volume : Int
  deriving DecidableEq, Repr

/-- A row of `records`. -/
structure RecordRow where
  ID : Nat
  AccountID : Nat
  AssetID : Nat
  Type_ : String
  CreatedAt : Time
  Quantity : Int
  deriving DecidableEq, Repr

/-- The store: catalogue, rows, the last value each sequence gave out, and the time. -/
structure PgState where
  enums : List (String × List String)
  tables : List Table
  accounts : List Account
  assets : List Asset
  assetValues : List AssetValueRow
  records : List RecordRow
  accountsSeq : Nat
  assetsSeq : Nat
  assetValuesSeq : Nat
  recordsSeq : Nat
  clock : Time
  deriving DecidableEq, Repr

/-- A struct field as gorm maps it to a column: name, data type, `NOT NULL`. -/
structure Field where
  dbName : String
  sqlType : String
  notNull : Bool
  deriving DecidableEq, Repr

/-- The table gorm derives from the struct's name. -/
def Model.table : Model → String
  | .Account => "accounts"
  | .Asset => "assets"
  | .AssetValue => "asset_values"
  | .Record => "records"

/-- The columns gorm derives from the struct's fields and their `sql` tags
(a struct-typed field such as `Record.Account` is a relation, not a column). -/
def Model.fields : Model → List Field
  | .Account => [⟨"id", "bigserial", false⟩, ⟨"name", "varchar(255)", false⟩]
  | .Asset =>
    [⟨"id", "bigserial", false⟩, ⟨"name", "varchar(255)", false⟩, ⟨"symbol", "varchar(255)", false⟩,
     ⟨"isin", "varchar(255)", false⟩, ⟨"description", "text", false⟩]
  | .AssetValue =>
    [⟨"id", "bigserial", false⟩, ⟨"asset_id", "bigint", false⟩, ⟨"base_asset_id", "bigint", false⟩,
     ⟨"evaluated_at", "timestamp with time zone", false⟩, ⟨"granularity", "GRANULARITY", true⟩,
     ⟨"open", "decimal(10,4)", false⟩, ⟨"high", "decimal(10,4)", false⟩,
     ⟨"low", "decimal(10,4)", false⟩, ⟨"close", "decimal(10,4)", false⟩, ⟨"volume", "bigint", false⟩]
  | .Record =>
    [⟨"id", "bigserial", false⟩, ⟨"account_id", "bigint", false⟩, ⟨"asset_id", "bigint", false⟩,
     ⟨"type", "record_type", true⟩, ⟨"created_at", "timestamp with time zone", false⟩,
     ⟨"quantity", "integer", false⟩]

/-- The column a field becomes. -/
def Field.column (f : Field) : Column := ⟨f.dbName, foldIdent f.sqlType⟩

/-- The data types Postgres has without a `CREATE TYPE`. -/
def builtinTypes : List String :=
  ["bigserial", "bigint", "integer", "varchar(255)", "text", "timestamp with time zone",
   "decimal(10,4)"]

/-- The type name resolves: built in, or an enum of the catalogue. -/
def typeExists (s : PgState) (ty : String) : Prop :=
  foldIdent ty ∈ builtinTypes ∨ ∃ e ∈ s.enums, e.1 = foldIdent ty

instance (s : PgState) (ty : String) : Decidable (typeExists s ty) := by
  unfold typeExists; infer_instance

/-- The table of a model holds at least one row. -/
def hasRows (s : PgState) : Model → Bool
  | .Account => decide (s.accounts ≠ [])
  | .Asset => decide (s.assets ≠ [])
  | .AssetValue => decide (s.assetValues ≠ [])
  | .Record => decide (s.records ≠ [])

/-- Some table `table` has a column `column` of type `type`. -/
def hasTypedColumn (s : PgState) (type table column : String) : Prop :=
  ∃ T ∈ s.tables, T.name = table ∧ ∃ c ∈ T.columns, c.name = column ∧ c.type = type

instance (s : PgState) (type table column : String) :
    Decidable (hasTypedColumn s type table column) := by
  unfold hasTypedColumn; infer_instance

/-- SQL `DROP TYPE IF EXISTS name CASCADE`: the type goes, and with it every column
of that type; rows lose what they held there. -/
def dropTypeCascade (s : PgState) (name : String) : PgState :=
  { s with
    enums := s.enums.filter fun e => e.1 ≠ name
    tables := s.tables.map fun T => { T with columns := T.columns.filter fun c => c.type ≠ name }
    assetValues :=
      if hasTypedColumn s name "asset_values" "granularity" then
        s.assetValues.map fun r => { r with Granularity := "" }
      else s.assetValues
    records :=
      if hasTypedColumn s name "records" "type" then
        s.records.map fun r => { r with Type_ := "" }
      else s.records }

/-- SQL `CREATE TYPE name AS ENUM (labels)`: fails when the type exists. -/
def createEnum (s : PgState) (name : String) (labels : List String) : PgState × Option DbError :=
  if ∃ e ∈ s.enums, e.1 = name then (s, some (.duplicateObject name))
  else ({ s with enums := s.enums ++ [(name, labels)] }, none)

/-- The call `db.Raw.Exec(sql)`. -/
def pgExec (s : PgState) (sql : String) : PgState × Option GormError :=
  match parseSql sql with
  | none => (s, some (.single (.malformedSql sql)))
  | some (.dropTypeIfExistsCascade name) => (dropTypeCascade s name, none)
  | some (.createEnum name labels) =>
    ((createEnum s name labels).1, (createEnum s name labels).2.map GormError.single)

/-- SQL `ALTER TABLE ... ADD` for every field the table has no column for, in
order, stopping at the first failure: an unknown type, or a `NOT NULL` column
for a table that has rows. -/
def addColumns (s : PgState) (rows : Bool) (table : String) :
    List Field → List Column → List Column × Option DbError
  | [], cols => (cols, none)
  | f :: fs, cols =>
    if ∃ c ∈ cols, c.name = f.dbName then addColumns s rows table fs cols
    else if ¬ typeExists s f.sqlType then (cols, some (.undefinedObject (foldIdent f.sqlType)))
    else if f.notNull = true ∧ rows = true then (cols, some (.notNullViolation table f.dbName))
    else addColumns s rows table fs (cols ++ [f.column])

/-- The call `db.Raw.AutoMigrate(&m)`: creates the table when there is none, else adds
the missing columns; existing columns are left as they are. -/
def pgAutoMigrate (s : PgState) (m : Model) : PgState × Option GormError :=
  match s.tables.find? fun T => T.name = m.table with
  | none =>
    match m.fields.find? fun f => ¬ typeExists s f.sqlType with
    | some f => (s, some (.single (.undefinedObject (foldIdent f.sqlType))))
    | none => ({ s with tables := s.tables ++ [⟨m.table, m.fields.map Field.column⟩] }, none)
  | some T =>
    ({ s with
       tables := s.tables.map fun T' =>
         if T'.name = m.table then
           { T' with columns := (addColumns s (hasRows s m) m.table m.fields T'.columns).1 }
         else T' },
     (addColumns s (hasRows s m) m.table m.fields T.columns).2.map GormError.single)

/-- The table of the model exists and has a column for each field, or the error. -/
def tableReady (s : PgState) (m : Model) : Option DbError :=
  match s.tables.find? fun T => T.name = m.table with
  | none => some (.undefinedTable m.table)
  | some T =>
    match m.fields.find? fun f => ¬ ∃ c ∈ T.columns, c.name = f.dbName with
    | some f => some (.undefinedColumn m.table f.dbName)
    | none => none

/-- What keeps row `a` out of `assets` with rows `rows`: a `varchar(255)`
overflow, or one of the unique indexes. -/
def assetViolation (rows : List Asset) (a : Asset) : Option DbError :=
  if 255 < a.Name.length then some (.stringTooLong "assets" "name")
  else if 255 < a.Symbol.length then some (.stringTooLong "assets" "symbol")
  else if 255 < a.ISIN.length then some (.stringTooLong "assets" "isin")
  else if ∃ r ∈ rows, r.ID = a.ID then some (.uniqueViolation "assets_pkey")
  else if ∃ r ∈ rows, r.Name = a.Name then some (.uniqueViolation "uix_assets_name")
  else if ∃ r ∈ rows, r.Symbol = a.Symbol then some (.uniqueViolation "uix_assets_symbol")
  else if ∃ r ∈ rows, r.ISIN = a.ISIN then some (.uniqueViolation "uix_assets_isin")
  else none

/-- What keeps row `a` out of `accounts` with rows `rows`. -/
def accountViolation (rows : List Account) (a : Account) : Option DbError :=
  if 255 < a.Name.length then some (.stringTooLong "accounts" "name")
  else if ∃ r ∈ rows, r.ID = a.ID then some (.uniqueViolation "accounts_pkey")
  else if ∃ r ∈ rows, r.Name = a.Name then some (.uniqueViolation "uix_accounts_name")
  else none

/-- The call `db.Raw.Create(&asset)`: a zero `ID` takes the next value of the sequence
(a sequence is taken never to run out), and the struct gets the key on success.
A rejected insert leaves the store as it was: the sequence value Postgres
spends on it is not kept track of. -/
def pgCreateAsset (s : PgState) (a : Asset) : PgState × Asset × Option GormError :=
  match tableReady s .Asset with
  | some e => (s, a, some (.single e))
  | none =>
    if a.ID = 0 then
      match assetViolation s.assets { a with ID := s.assetsSeq + 1 } with
      | some e => (s, a, some (.single e))
      | none =>
        ({ s with assetsSeq := s.assetsSeq + 1,
                  assets := s.assets ++ [{ a with ID := s.assetsSeq + 1 }] },
         { a with ID := s.assetsSeq + 1 }, none)
    else
      match assetViolation s.assets a with
      | some e => (s, a, some (.single e))
      | none => ({ s with assets := s.assets ++ [a] }, a, none)

/-- The call `db.Raw.Create(&account)`. -/
def pgCreateAccount (s : PgState) (a : Account) : PgState × Account × Option GormError :=
  match tableReady s .Account with
  | some e => (s, a, some (.single e))
  | none =>
    if a.ID = 0 then
      match accountViolation s.accounts { a with ID := s.accountsSeq + 1 } with
      | some e => (s, a, some (.single e))
      | none =>
        ({ s with accountsSeq := s.accountsSeq + 1,
                  accounts := s.accounts ++ [{ a with ID := s.accountsSeq + 1 }] },
         { a with ID := s.accountsSeq + 1 }, none)
    else
      match accountViolation s.accounts a with
      | some e => (s, a, some (.single e))
      | none => ({ s with accounts := s.accounts ++ [a] }, a, none)

/-- The column a condition `<column> = ?` names. -/
def whereColumn (query : String) : Option String :=
  match words query with
  | [col, eq, mark] => if eq = "=" ∧ mark = "?" then some (foldIdent col) else none
  | _ => none

/-- The value a row of `assets` holds in a column. -/
def assetColumn (col : String) (r : Asset) : Option DriverValue :=
  if col = "id" then some (.int64 r.ID)
  else if col = "name" then some (.str r.Name)
  else if col = "symbol" then some (.str r.Symbol)
  else if col = "isin" then some (.str r.ISIN)
  else if col = "description" then some (.str r.Description)
  else none

/-- The value a row of `accounts` holds in a column. -/
def accountColumn (col : String) (r : Account) : Option DriverValue :=
  if col = "id" then some (.int64 r.ID)
  else if col = "name" then some (.str r.Name)
  else none

/-- The row with the least `ID` (`ORDER BY id ASC LIMIT 1`). -/
def firstAssetById (rows : List Asset) : Option Asset :=
  rows.foldl
    (fun best r =>
      match best with
      | none => some r
      | some b => if r.ID < b.ID then some r else some b)
    none

/-- The row with the least `ID` (`ORDER BY id ASC LIMIT 1`). -/
def firstAccountById (rows : List Account) : Option Account :=
  rows.foldl
    (fun best r =>
      match best with
      | none => some r
      | some b => if r.ID < b.ID then some r else some b)
    none

/-- The call `db.Raw.First(&asset, query, args...)`: the first row by primary key whose
column equals the argument is copied into the struct; with no such row, or on
an error, the struct stays as it was. -/
def pgFirstAsset (s : PgState) (out : Asset) (query : String) (args : List DriverValue) :
    Asset × Option GormError :=
  match s.tables.find? fun T => T.name = "assets" with
  | none => (out, some (.single (.undefinedTable "assets")))
  | some T =>
    match whereColumn query, args with
    | some col, [v] =>
      if ∃ c ∈ T.columns, c.name = col then
        match firstAssetById (s.assets.filter fun r => assetColumn col r = some v) with
        | some row => (row, none)
        | none => (out, some (.single .recordNotFound))
      else (out, some (.single (.undefinedColumn "assets" col)))
    | _, _ => (out, some (.single (.malformedSql query)))

/-- The call `db.Raw.First(&account, query, args...)`. -/
def pgFirstAccount (s : PgState) (out : Account) (query : String) (args : List DriverValue) :
    Account × Option GormError :=
  match s.tables.find? fun T => T.name = "accounts" with
  | none => (out, some (.single (.undefinedTable "accounts")))
  | some T =>
    match whereColumn query, args with
    | some col, [v] =>
      if ∃ c ∈ T.columns, c.name = col then
        match firstAccountById (s.accounts.filter fun r => accountColumn col r = some v) with
        | some row => (row, none)
        | none => (out, some (.single .recordNotFound))
      else (out, some (.single (.undefinedColumn "accounts" col)))
    | _, _ => (out, some (.single (.malformedSql query)))

/-- The `Save` gorm runs on a belongs-to struct before it inserts the owner:
a zero key creates the row; a nonzero key updates the row with that key, and
creates it when there is none. -/
def pgSaveAccount (s : PgState) (a : Account) : PgState × Account × Option GormError :=
  if a.ID = 0 then pgCreateAccount s a
  else
    match tableReady s .Account with
    | some e => (s, a, some (.single e))
    | none =>
      if ∃ r ∈ s.accounts, r.ID = a.ID then
        match accountViolation (s.accounts.filter fun r => r.ID ≠ a.ID) a with
        | some e => (s, a, some (.single e))
        | none =>
          ({ s with accounts := s.accounts.map fun r => if r.ID = a.ID then a else r }, a, none)
      else pgCreateAccount s a

/-- The `Save` gorm runs on a belongs-to `Asset`. -/
def pgSaveAsset (s : PgState) (a : Asset) : PgState × Asset × Option GormError :=
  if a.ID = 0 then pgCreateAsset s a
  else
    match tableReady s .Asset with
    | some e => (s, a, some (.single e))
    | none =>
      if ∃ r ∈ s.assets, r.ID = a.ID then
        match assetViolation (s.assets.filter fun r => r.ID ≠ a.ID) a with
        | some e => (s, a, some (.single e))
        | none =>
          ({ s with assets := s.assets.map fun r => if r.ID = a.ID then a else r }, a, none)
      else pgCreateAsset s a

/-- The value is no label of the enum the column has for a type. -/
def enumViolation (s : PgState) (table column value : String) : Option DbError :=
  match s.tables.find? fun T => T.name = table with
  | none => none
  | some T =>
    match T.columns.find? fun c => c.name = column with
    | none => none
    | some c =>
      match s.enums.find? fun e => e.1 = c.type with
      | none => none
      | some e => if value ∈ e.2 then none else some (.invalidEnumValue c.type value)

/-- The row of `records` a struct is stored as, under key `id`. -/
def Record.row (r : Record) (id : Nat) : RecordRow :=
  ⟨id, r.AccountID, r.AssetID, r.Type_.val, r.CreatedAt, r.Quantity⟩

/-- What keeps a record out of `records`, the primary key aside: the table is
not ready, `quantity` does not fit its `integer` column, or `type` is no label
of the column's enum. -/
def recordViolation (s : PgState) (r : Record) : Option DbError :=
  match tableReady s .Record with
  | some e => some e
  | none =>
    if r.Quantity < -2147483648 ∨ 2147483647 < r.Quantity then
      some (.numericOutOfRange "records" "quantity")
    else enumViolation s "records" "type" r.Type_.val

/-- The `INSERT INTO records` of a `Create`. -/
def pgInsertRecord (s : PgState) (r : Record) : PgState × Record × Option DbError :=
  match recordViolation s r with
  | some e => (s, r, some e)
  | none =>
    if r.ID = 0 then
      if ∃ x ∈ s.records, x.ID = s.recordsSeq + 1 then
        (s, r, some (.uniqueViolation "records_pkey"))
      else
        ({ s with recordsSeq := s.recordsSeq + 1,
                  records := s.records ++ [r.row (s.recordsSeq + 1)] },
         { r with ID := s.recordsSeq + 1 }, none)
    else if ∃ x ∈ s.records, x.ID = r.ID then (s, r, some (.uniqueViolation "records_pkey"))
    else ({ s with records := s.records ++ [r.row r.ID] }, r, none)

/-- The `Error` field after the errors `es` were added. -/
def ofErrors : List DbError → Option GormError
  | [] => none
  | [e] => some (.single e)
  | es => some (.multiple es)

/-- The first step of `db.Raw.Create(&record)`: each belongs-to struct that is
not the zero value is saved (the second save meets a failed transaction when
the first one failed) and its key copied into `AccountID` / `AssetID`.  Gives
the store, the struct and the errors so far. -/
def pgSaveRefs (s : PgState) (r : Record) : PgState × Record × List DbError :=
  let acc := if r.Account = Account.zero then (s, r.Account, none) else pgSaveAccount s r.Account
  let ast :=
    if r.Asset = Asset.zero then (acc.1, r.Asset, none)
    else
      match acc.2.2 with
      | none => pgSaveAsset acc.1 r.Asset
      | some _ => (acc.1, r.Asset, some (.single .inFailedTransaction))
  (ast.1,
   { r with
     Account := acc.2.1
     AccountID := if r.Account = Account.zero then r.AccountID else acc.2.1.ID
     Asset := ast.2.1
     AssetID := if r.Asset = Asset.zero then r.AssetID else ast.2.1.ID },
   GetErrors acc.2.2 ++ GetErrors ast.2.2)

/-- The second step: a zero `CreatedAt` is set to the current time. -/
def stampCreatedAt (s : PgState) (r : Record) : Record :=
  if r.CreatedAt = Time.zero then { r with CreatedAt := s.clock } else r

/-- The call `db.Raw.Create(&record)`, one transaction: the belongs-to saves; then,
unless an error came up, the time stamp and the insert.  An error rolls the
transaction back: the store is left as it was. -/
def pgCreateRecord (s : PgState) (r : Record) : PgState × Record × Option GormError :=
  match (pgSaveRefs s r).2.2 with
  | [] =>
    match (pgInsertRecord (pgSaveRefs s r).1 (stampCreatedAt s (pgSaveRefs s r).2.1)).2.2 with
    | none =>
      ((pgInsertRecord (pgSaveRefs s r).1 (stampCreatedAt s (pgSaveRefs s r).2.1)).1,
       (pgInsertRecord (pgSaveRefs s r).1 (stampCreatedAt s (pgSaveRefs s r).2.1)).2.1, none)
    | some e =>
      (s, (pgInsertRecord (pgSaveRefs s r).1 (stampCreatedAt s (pgSaveRefs s r).2.1)).2.1,
       some (.single e))
  | e :: es => (s, (pgSaveRefs s r).2.1, ofErrors (e :: es))

/-- The handle of a gorm connection to the store. -/
def pg : Gorm PgState where
  Exec := pgExec
  AutoMigrate := pgAutoMigrate
  FirstAsset := pgFirstAsset
  FirstAccount := pgFirstAccount
  CreateAsset := pgCreateAsset
  CreateAccount := pgCreateAccount
  CreateRecord := pgCreateRecord

/-- A store with nothing in it. -/
def PgState.empty : PgState :=
  { enums := [], tables := [], accounts := [], assets := [], assetValues := [], records := [],
    accountsSeq := 0, assetsSeq := 0, assetValuesSeq := 0, recordsSeq := 0, clock := ⟨1⟩ }

/-! ## Definitions the theorems are stated with -/

/-- The labels of the enum type `name`, if the catalogue has it. -/
def enumLabels (s : PgState) (name : String) : Option (List String) :=
  (s.enums.find? fun e => e.1 = name).map Prod.snd

/-- The labels of the `CREATE TYPE granularity` statement of `CreateTables`. -/
def granularityLabels : List String :=
  ["1sec", "1min", "5min", "1hour", "1day", "1week", "1month", "1year"]

/-- The labels of the `CREATE TYPE record_type` statement of `CreateTables`. -/
def recordTypeLabels : List String := ["deposit", "withdraw", "balance_adjustment"]

/-- The store after the four `Exec` calls of `CreateTables`. -/
def afterTypes (s : PgState) : PgState :=
  let s1 := dropTypeCascade s "granularity"
  let s2 : PgState := { s1 with enums := s1.enums ++ [("granularity", granularityLabels)] }
  let s3 := dropTypeCascade s2 "record_type"
  { s3 with enums := s3.enums ++ [("record_type", recordTypeLabels)] }

/-- A call on the repository that can change the store. -/
inductive Call
  | insertAsset (name description : String)
  | insertAccount (name : String)
  | insertRecord (account : Account) (asset : Asset) (recordType : RecordType)
      (createdAt : Time) (quantity : Int)
  | createTables
  deriving DecidableEq, Repr

/-- The store a call leaves. -/
def Call.run {σ : Type} (Raw : Gorm σ) (db : σ) : Call → σ
  | .insertAsset name description => (InsertAsset Raw db name description).1
  | .insertAccount name => (InsertAccount Raw db name).1
  | .insertRecord account asset recordType createdAt quantity =>
    (InsertRecord Raw db account asset recordType createdAt quantity).1
  | .createTables => CreateTables Raw db

/-- The store a sequence of calls leaves. -/
def runCalls {σ : Type} (Raw : Gorm σ) (db : σ) (calls : List Call) : σ :=
  calls.foldl (Call.run Raw) db

/-- The call hands gorm no asset struct with a non-empty `Symbol`. -/
def Call.blankSymbol : Call → Prop
  | .insertRecord _ asset _ _ _ => asset.Symbol = ""
  | _ => True

instance (c : Call) : Decidable c.blankSymbol := by
  cases c <;> unfold Call.blankSymbol <;> infer_instance

/-- Some row of `assets` has the empty `Symbol`. -/
def HasBlankSymbol (s : PgState) : Prop := ∃ r ∈ s.assets, r.Symbol = ""

/-- The field `AssetValue.Granularity`. -/
def granularityField : Field := ⟨"granularity", "GRANULARITY", true⟩

/-- The field `Record.Type`. -/
def typeField : Field := ⟨"type", "record_type", true⟩

/-- What `AutoMigrate` does to one table. -/
def migrateTable (s : PgState) (m : Model) (T : Table) : Table :=
  if T.name = m.table then
    { T with columns := (addColumns s (hasRows s m) m.table m.fields T.columns).1 }
  else T

/-- Both enum types exist and the two tables with an enum column have no rows. -/
def Settled (u : PgState) : Prop :=
  (∃ e ∈ u.enums, e.1 = "granularity") ∧ (∃ e ∈ u.enums, e.1 = "record_type") ∧
    u.assetValues = [] ∧ u.records = []

/-- The table without its columns of type `ty`. -/
def dropColumns (ty : String) (T : Table) : Table :=
  { T with columns := T.columns.filter fun c => c.type ≠ ty }

/-- Every table of the model has a column for each field, and there is one. -/
def Complete (u : PgState) (m : Model) : Prop :=
  (∃ T ∈ u.tables, T.name = m.table) ∧
    ∀ T ∈ u.tables, T.name = m.table → ∀ f ∈ m.fields, ∃ c ∈ T.columns, c.name = f.dbName

/-- The columns of type `ty` of a table are the columns named `col` of the
table `table`: a column of that type sits in `table` under the name `col`, and
where there is one, every column named `col` has that type. -/
def EnumColumn (ty table col : String) (T : Table) : Prop :=
  (∀ c ∈ T.columns, c.type = ty → T.name = table ∧ c.name = col) ∧
    ((∃ c ∈ T.columns, c.type = ty) → ∀ c ∈ T.columns, c.name = col → c.type = ty)

/-- Both enum types are used only where the models use them. -/
def EnumColumnsOk (T : Table) : Prop :=
  EnumColumn "granularity" "asset_values" "granularity" T ∧
    EnumColumn "record_type" "records" "type" T

/-- What a second `CreateTables` does to one table. -/
def rerunTable (u1 u2 u3 u4 : PgState) (T : Table) : Table :=
  migrateTable u4 .Record (migrateTable u3 .AssetValue (migrateTable u2 .Asset
    (migrateTable u1 .Account (dropColumns "record_type" (dropColumns "granularity" T)))))

/-- The store `CreateTables` leaves when run on an empty one. -/
def freshStore : PgState := CreateTables pg PgState.empty

/-- The fresh store after `InsertAsset("AMZN-co", "desc")` and `InsertAccount("alice")`. -/
def ledgerStore : PgState :=
  (InsertAccount pg (InsertAsset pg freshStore "AMZN-co" "desc").1 "alice").1

/-- The account row of `ledgerStore`. -/
def alice : Account := ⟨1, "alice"⟩

/-- The asset row of `ledgerStore`. -/
def amzn : Asset := ⟨1, "AMZN-co", "", "", "desc"⟩

/-! ## Theorems: the enumerations -/

/-- C1: for every declared constant `t` of `AccountType`, `Granularity` and
`RecordType`, `Value()` returns a nil error and the literal tag string of `t`
(one of the literals of the `const` block, listed in declaration order), and
`Scan` of that result returns a nil error and leaves the receiver equal to `t`,
whatever the receiver held before. -/
theorem enum_value_scan_roundtrip (a : AccountType) (g : Granularity) (r : RecordType)
    (a0 : AccountType) (g0 : Granularity) (r0 : RecordType)
    (ha : a ∈ AccountType.constants) (hg : g ∈ Granularity.constants)
    (hr : r ∈ RecordType.constants) :
    (a.Value = (.str a.val, none) ∧
      a.val ∈ ["checking", "savings", "investment", "credit_card", "virtual"] ∧
      a0.Scan a.Value.1 = .returned (a, none)) ∧
    (g.Value = (.str g.val, none) ∧
      g.val ∈ ["1sec", "1min", "5min", "1hour", "1day", "1week", "1month", "1year"] ∧
      g0.Scan g.Value.1 = .returned (g, none)) ∧
    (r.Value = (.str r.val, none) ∧
      r.val ∈ ["deposit", "withdraw", "balance_adjustment"] ∧
      r0.Scan r.Value.1 = .returned (r, none)) ∧
    AccountType.constants.map AccountType.Value =
      [(.str "checking", none), (.str "savings", none), (.str "investment", none),
       (.str "credit_card", none), (.str "virtual", none)] ∧
    Granularity.constants.map Granularity.Value =
      [(.str "1sec", none), (.str "1min", none), (.str "5min", none), (.str "1hour", none),
       (.str "1day", none), (.str "1week", none), (.str "1month", none), (.str "1year", none)] ∧
    RecordType.constants.map RecordType.Value =
      [(.str "deposit", none), (.str "withdraw", none), (.str "balance_adjustment", none)] := by
  refine ⟨⟨rfl, ?_, rfl⟩, ⟨rfl, ?_, rfl⟩, ⟨rfl, ?_, rfl⟩, rfl, rfl, rfl⟩
  · exact List.mem_map_of_mem AccountType.val ha
  · exact List.mem_map_of_mem Granularity.val hg
  · exact List.mem_map_of_mem RecordType.val hr

/-- C1 at `CREDIT_CARD`, `FIVE_MIN` and `BALANCE_ADJUSTMENT`. -/
theorem enum_value_scan_roundtrip_witness :
    (AccountType.CREDIT_CARD ∈ AccountType.constants ∧
      Granularity.FIVE_MIN ∈ Granularity.constants ∧
      RecordType.BALANCE_ADJUSTMENT ∈ RecordType.constants) ∧
    AccountType.CHECKING.Scan AccountType.CREDIT_CARD.Value.1
      = .returned (AccountType.CREDIT_CARD, none) ∧
    Granularity.SEC.Scan Granularity.FIVE_MIN.Value.1
      = .returned (Granularity.FIVE_MIN, none) ∧
    RecordType.DEPOSIT.Scan RecordType.BALANCE_ADJUSTMENT.Value.1
      = .returned (RecordType.BALANCE_ADJUSTMENT, none) :=
  have h := enum_value_scan_roundtrip AccountType.CREDIT_CARD Granularity.FIVE_MIN
    RecordType.BALANCE_ADJUSTMENT AccountType.CHECKING Granularity.SEC RecordType.DEPOSIT
    (by decide) (by decide) (by decide)
  ⟨⟨by decide, by decide, by decide⟩, h.1.2.2, h.2.1.2.2, h.2.2.1.2.2⟩

/-- C2, as the code has it: `Scan` of a string, a declared tag or not, returns a
nil error and leaves the receiver holding exactly that string, for each of the
three enumerations. -/
theorem Scan_stores_any_string (s : String) (a0 : AccountType) (g0 : Granularity)
    (r0 : RecordType) :
    a0.Scan (.str s) = .returned (⟨s⟩, none) ∧
    g0.Scan (.str s) = .returned (⟨s⟩, none) ∧
    r0.Scan (.str s) = .returned (⟨s⟩, none) :=
  ⟨rfl, rfl, rfl⟩

/-- C2 fails on the code: `"2min"` is no `Granularity` constant, yet `Scan`
returns a nil error and sets the receiver to it; a store value that is no
string ends `Scan` in a panic. -/
theorem Scan_unrecognized_tag_accepted :
    (⟨"2min"⟩ : Granularity) ∉ Granularity.constants ∧
    Granularity.SEC.Scan (.str "2min") = .returned (⟨"2min"⟩, none) ∧
    (∃ msg, Granularity.SEC.Scan (.int64 2) = .panicked msg) := by
  refine ⟨by decide, rfl, ⟨_, rfl⟩⟩

/-! ## Theorems: lookups and the command sequence, over every handle -/

/-- C3: for each of `GetAssetBySymbol`, `GetAssetByName`, `GetAccountByName`,
every key and every store: the entity returned is what `First` left in the
target; the error is non-nil exactly when that is the zero value, and then its
message carries the key; a zero-valued entity never comes with a nil error. -/
theorem lookup_error_iff_zero_value {σ : Type} (Raw : Gorm σ) (db : σ) (key : String) :
    ((GetAssetBySymbol Raw db key).1 = (Raw.FirstAsset db Asset.zero "symbol = ?" [.str key]).1 ∧
      ((GetAssetBySymbol Raw db key).2 ≠ none ↔ (GetAssetBySymbol Raw db key).1 = Asset.zero) ∧
      ((GetAssetBySymbol Raw db key).1 = Asset.zero →
        (GetAssetBySymbol Raw db key).2 = some ("Asset '" ++ key ++ "' not found")) ∧
      ¬ ((GetAssetBySymbol Raw db key).1 = Asset.zero ∧ (GetAssetBySymbol Raw db key).2 = none)) ∧
    ((GetAssetByName Raw db key).1 = (Raw.FirstAsset db Asset.zero "name = ?" [.str key]).1 ∧
      ((GetAssetByName Raw db key).2 ≠ none ↔ (GetAssetByName Raw db key).1 = Asset.zero) ∧
      ((GetAssetByName Raw db key).1 = Asset.zero →
        (GetAssetByName Raw db key).2 = some ("Asset '" ++ key ++ "' not found")) ∧
      ¬ ((GetAssetByName Raw db key).1 = Asset.zero ∧ (GetAssetByName Raw db key).2 = none)) ∧
    ((GetAccountByName Raw db key).1
        = (Raw.FirstAccount db Account.zero "name = ?" [.str key]).1 ∧
      ((GetAccountByName Raw db key).2 ≠ none ↔ (GetAccountByName Raw db key).1 = Account.zero) ∧
      ((GetAccountByName Raw db key).1 = Account.zero →
        (GetAccountByName Raw db key).2 = some ("Account '" ++ key ++ "' not found")) ∧
      ¬ ((GetAccountByName Raw db key).1 = Account.zero ∧
          (GetAccountByName Raw db key).2 = none)) := by
  refine ⟨?_, ?_, ?_⟩
  · unfold GetAssetBySymbol
    by_cases h : (Raw.FirstAsset db Asset.zero "symbol = ?" [.str key]).1 = Asset.zero
    · simp [h]
    · simp [h]
  · unfold GetAssetByName
    by_cases h : (Raw.FirstAsset db Asset.zero "name = ?" [.str key]).1 = Asset.zero
    · simp [h]
    · simp [h]
  · unfold GetAccountByName
    by_cases h : (Raw.FirstAccount db Account.zero "name = ?" [.str key]).1 = Account.zero
    · simp [h]
    · simp [h]

/-- C8: on every store, whatever each command comes back with, `CreateTables`
issues these eight commands in this order, after what the journal held: drop
and create `granularity`, drop and create `record_type`, then auto-migrate
`Account`, `Asset`, `AssetValue`, `Record`; the journal changes nothing in what
the store is left as. -/
theorem CreateTables_command_sequence {σ : Type} (Raw : Gorm σ) (db : σ)
    (journal : List (Command × Option GormError)) :
    (CreateTables (traced Raw) (db, journal)).2.map Prod.fst =
      journal.map Prod.fst ++
        [Command.Exec "DROP TYPE IF EXISTS granularity CASCADE",
         Command.Exec
           "CREATE TYPE granularity AS ENUM('1sec', '1min', '5min', '1hour', '1day', '1week', '1month', '1year')",
         Command.Exec "DROP TYPE IF EXISTS record_type CASCADE",
         Command.Exec "CREATE TYPE record_type AS ENUM('deposit', 'withdraw', 'balance_adjustment')",
         Command.AutoMigrate Model.Account, Command.AutoMigrate Model.Asset,
         Command.AutoMigrate Model.AssetValue, Command.AutoMigrate Model.Record] ∧
    (CreateTables (traced Raw) (db, journal)).1 = CreateTables Raw db := by
  simp [CreateTables, traced]

/-! ## Theorems: the enum types `CreateTables` creates -/

theorem parseSql_drop_granularity :
    parseSql "DROP TYPE IF EXISTS granularity CASCADE"
      = some (.dropTypeIfExistsCascade "granularity") := by decide

theorem parseSql_drop_record_type :
    parseSql "DROP TYPE IF EXISTS record_type CASCADE"
      = some (.dropTypeIfExistsCascade "record_type") := by decide

theorem parseSql_create_granularity :
    parseSql
        "CREATE TYPE granularity AS ENUM('1sec', '1min', '5min', '1hour', '1day', '1week', '1month', '1year')"
      = some (.createEnum "granularity" granularityLabels) := by decide

theorem parseSql_create_record_type :
    parseSql "CREATE TYPE record_type AS ENUM('deposit', 'withdraw', 'balance_adjustment')"
      = some (.createEnum "record_type" recordTypeLabels) := by decide

theorem createEnum_after_drop (s : PgState) (name : String) (labels : List String) :
    createEnum (dropTypeCascade s name) name labels
      = ({ dropTypeCascade s name with
            enums := (dropTypeCascade s name).enums ++ [(name, labels)] }, none) := by
  unfold createEnum
  rw [if_neg]
  rintro ⟨e, he, hn⟩
  simp [dropTypeCascade] at he
  exact he.2 hn

theorem CreateTables_pg (s : PgState) :
    CreateTables pg s =
      (pgAutoMigrate (pgAutoMigrate (pgAutoMigrate (pgAutoMigrate (afterTypes s)
        Model.Account).1 Model.Asset).1 Model.AssetValue).1 Model.Record).1 := by
  have h2 : ∀ t : PgState, createEnum (dropTypeCascade t "record_type") "record_type" recordTypeLabels = _ :=
    fun t => createEnum_after_drop t _ _
  simp only [CreateTables, pg, pgExec, parseSql_drop_granularity, parseSql_drop_record_type,
    parseSql_create_granularity, parseSql_create_record_type, createEnum_after_drop, afterTypes]

theorem pgAutoMigrate_enums (s : PgState) (m : Model) : (pgAutoMigrate s m).1.enums = s.enums := by
  unfold pgAutoMigrate
  split
  · split <;> rfl
  · rfl

theorem pgAutoMigrate_rows (s : PgState) (m : Model) :
    (pgAutoMigrate s m).1.accounts = s.accounts ∧ (pgAutoMigrate s m).1.assets = s.assets ∧
    (pgAutoMigrate s m).1.assetValues = s.assetValues ∧ (pgAutoMigrate s m).1.records = s.records := by
  unfold pgAutoMigrate
  split
  · split <;> exact ⟨rfl, rfl, rfl, rfl⟩
  · exact ⟨rfl, rfl, rfl, rfl⟩

theorem pgAutoMigrate_counters (s : PgState) (m : Model) :
    (pgAutoMigrate s m).1.accountsSeq = s.accountsSeq ∧
    (pgAutoMigrate s m).1.assetsSeq = s.assetsSeq ∧
    (pgAutoMigrate s m).1.assetValuesSeq = s.assetValuesSeq ∧
    (pgAutoMigrate s m).1.recordsSeq = s.recordsSeq ∧ (pgAutoMigrate s m).1.clock = s.clock := by
  unfold pgAutoMigrate
  split
  · split <;> exact ⟨rfl, rfl, rfl, rfl, rfl⟩
  · exact ⟨rfl, rfl, rfl, rfl, rfl⟩

theorem afterTypes_enums (s : PgState) :
    (afterTypes s).enums =
      (s.enums.filter fun e => e.1 ≠ "granularity" ∧ e.1 ≠ "record_type") ++
        [("granularity", granularityLabels), ("record_type", recordTypeLabels)] := by
  simp only [afterTypes, dropTypeCascade, List.filter_append, List.filter_filter]
  have h : (List.filter (fun e : String × List String => decide (e.1 ≠ "record_type"))
      [("granularity", granularityLabels)]) = [("granularity", granularityLabels)] := by decide
  rw [h, List.append_assoc]
  congr 1
  apply List.filter_congr
  intro e _
  simp only [ne_eq, decide_not, Bool.decide_and]
  exact Bool.and_comm _ _

theorem CreateTables_pg_enums (s : PgState) :
    (CreateTables pg s).enums =
      (s.enums.filter fun e => e.1 ≠ "granularity" ∧ e.1 ≠ "record_type") ++
        [("granularity", granularityLabels), ("record_type", recordTypeLabels)] := by
  rw [CreateTables_pg, pgAutoMigrate_enums, pgAutoMigrate_enums, pgAutoMigrate_enums,
    pgAutoMigrate_enums, afterTypes_enums]

theorem CreateTables_pg_enumLabels (s : PgState) :
    enumLabels (CreateTables pg s) "granularity" = some granularityLabels ∧
    enumLabels (CreateTables pg s) "record_type" = some recordTypeLabels := by
  unfold enumLabels
  rw [CreateTables_pg_enums]
  have hnone : ∀ name : String, (name = "granularity" ∨ name = "record_type") →
      ((s.enums.filter fun e => e.1 ≠ "granularity" ∧ e.1 ≠ "record_type").find?
        fun e => e.1 = name) = none := by
    intro name hname
    rw [List.find?_eq_none]
    intro e he
    have := (List.mem_filter.1 he).2
    simp only [decide_eq_true_eq] at this
    rcases hname with rfl | rfl
    · simpa using this.1
    · simpa using this.2
  constructor
  · rw [List.find?_append, hnone _ (Or.inl rfl)]
    decide
  · rw [List.find?_append, hnone _ (Or.inr rfl)]
    decide

/-- C7: the enum types `CreateTables` creates have exactly the declared
constants for values.  On every store, after `CreateTables` the catalogue has
`granularity` with the labels of its `CREATE TYPE` statement and `record_type`
with those of its statement; these label lists are the strings of the eight
`Granularity` constants and of the three `RecordType` constants; so the string
`Value()` returns for a constant is a label of its type, and every label is the
string of a constant. -/
theorem CreateTables_enum_labels_are_constants (s : PgState) :
    (parseSql
        "CREATE TYPE granularity AS ENUM('1sec', '1min', '5min', '1hour', '1day', '1week', '1month', '1year')"
      = some (.createEnum "granularity"
          ["1sec", "1min", "5min", "1hour", "1day", "1week", "1month", "1year"]) ∧
     parseSql "CREATE TYPE record_type AS ENUM('deposit', 'withdraw', 'balance_adjustment')"
      = some (.createEnum "record_type" ["deposit", "withdraw", "balance_adjustment"])) ∧
    (enumLabels (CreateTables pg s) "granularity"
        = some ["1sec", "1min", "5min", "1hour", "1day", "1week", "1month", "1year"] ∧
     enumLabels (CreateTables pg s) "record_type"
        = some ["deposit", "withdraw", "balance_adjustment"]) ∧
    (Granularity.constants.map Granularity.val
        = ["1sec", "1min", "5min", "1hour", "1day", "1week", "1month", "1year"] ∧
     RecordType.constants.map RecordType.val = ["deposit", "withdraw", "balance_adjustment"]) ∧
    (∀ g ∈ Granularity.constants, ∃ labels l,
      enumLabels (CreateTables pg s) "granularity" = some labels ∧ l ∈ labels ∧
      g.Value = (.str l, none)) ∧
    (∀ r ∈ RecordType.constants, ∃ labels l,
      enumLabels (CreateTables pg s) "record_type" = some labels ∧ l ∈ labels ∧
      r.Value = (.str l, none)) ∧
    (∀ labels l, enumLabels (CreateTables pg s) "granularity" = some labels → l ∈ labels →
      (⟨l⟩ : Granularity) ∈ Granularity.constants) ∧
    (∀ labels l, enumLabels (CreateTables pg s) "record_type" = some labels → l ∈ labels →
      (⟨l⟩ : RecordType) ∈ RecordType.constants) := by
  obtain ⟨hg, hr⟩ := CreateTables_pg_enumLabels s
  refine ⟨⟨parseSql_create_granularity, parseSql_create_record_type⟩, ⟨hg, hr⟩, ⟨rfl, rfl⟩,
    ?_, ?_, ?_, ?_⟩
  · intro g hmem
    exact ⟨_, g.val, hg, List.mem_map_of_mem Granularity.val hmem, rfl⟩
  · intro r hmem
    exact ⟨_, r.val, hr, List.mem_map_of_mem RecordType.val hmem, rfl⟩
  · intro labels l hl hmem
    rw [hg] at hl
    cases hl
    have : l ∈ Granularity.constants.map Granularity.val := hmem
    obtain ⟨g, hgm, rfl⟩ := List.mem_map.1 this
    exact hgm
  · intro labels l hl hmem
    rw [hr] at hl
    cases hl
    have : l ∈ RecordType.constants.map RecordType.val := hmem
    obtain ⟨g, hgm, rfl⟩ := List.mem_map.1 this
    exact hgm

/-! ## Theorems: assets -/

theorem tableReady_eq_none {s : PgState} {m : Model} (h : tableReady s m = none) :
    ∃ T, (s.tables.find? fun T => T.name = m.table) = some T ∧
      ∀ f ∈ m.fields, ∃ c ∈ T.columns, c.name = f.dbName := by
  unfold tableReady at h
  split at h
  · exact absurd h (by simp)
  · next T hT =>
    split at h
    · exact absurd h (by simp)
    · next hnone =>
      refine ⟨T, hT, fun f hf => ?_⟩
      have := List.find?_eq_none.1 hnone f hf
      simpa using this

theorem tableReady_congr {s t : PgState} (m : Model) (h : t.tables = s.tables) :
    tableReady t m = tableReady s m := by
  unfold tableReady; rw [h]

theorem assetViolation_eq_none {rows : List Asset} {a : Asset}
    (h : assetViolation rows a = none) :
    (∀ r ∈ rows, r.ID ≠ a.ID) ∧ (∀ r ∈ rows, r.Name ≠ a.Name) ∧
    (∀ r ∈ rows, r.Symbol ≠ a.Symbol) ∧ (∀ r ∈ rows, r.ISIN ≠ a.ISIN) ∧
    a.Name.length ≤ 255 := by
  unfold assetViolation at h
  by_cases h1 : 255 < a.Name.length
  · simp [h1] at h
  by_cases h2 : 255 < a.Symbol.length
  · simp [h1, h2] at h
  by_cases h3 : 255 < a.ISIN.length
  · simp [h1, h2, h3] at h
  by_cases h4 : ∃ r ∈ rows, r.ID = a.ID
  · simp [h1, h2, h3, h4] at h
  by_cases h5 : ∃ r ∈ rows, r.Name = a.Name
  · simp only [h1, h2, h3, h4, h5, if_true, if_false] at h
    exact absurd h (by simp)
  by_cases h6 : ∃ r ∈ rows, r.Symbol = a.Symbol
  · simp only [h1, h2, h3, h4, h5, h6, if_true, if_false] at h
    exact absurd h (by simp)
  by_cases h7 : ∃ r ∈ rows, r.ISIN = a.ISIN
  · simp only [h1, h2, h3, h4, h5, h6, h7, if_true, if_false] at h
    exact absurd h (by simp)
  refine ⟨?_, ?_, ?_, ?_, by omega⟩
  · intro r hr he; exact h4 ⟨r, hr, he⟩
  · intro r hr he; exact h5 ⟨r, hr, he⟩
  · intro r hr he; exact h6 ⟨r, hr, he⟩
  · intro r hr he; exact h7 ⟨r, hr, he⟩

/-- What a successful `Create` of an asset with a zero key did. -/
theorem pgCreateAsset_success {s : PgState} {a : Asset} (h0 : a.ID = 0)
    (h : GetErrors (pgCreateAsset s a).2.2 = []) :
    tableReady s .Asset = none ∧
    assetViolation s.assets { a with ID := s.assetsSeq + 1 } = none ∧
    pgCreateAsset s a =
      ({ s with assetsSeq := s.assetsSeq + 1,
                assets := s.assets ++ [{ a with ID := s.assetsSeq + 1 }] },
       { a with ID := s.assetsSeq + 1 }, none) := by
  unfold pgCreateAsset at h ⊢
  split at h
  · simp [GetErrors] at h
  · next hr =>
    rw [if_pos h0] at h
    split at h
    · simp [GetErrors] at h
    · next hv =>
      refine ⟨hr, hv, ?_⟩
      simp [hr, h0, hv]

theorem assetColumn_name (r : Asset) : assetColumn "name" r = some (.str r.Name) := rfl

theorem assetColumn_symbol (r : Asset) : assetColumn "symbol" r = some (.str r.Symbol) := rfl

theorem whereColumn_name : whereColumn "name = ?" = some "name" := by decide

theorem whereColumn_symbol : whereColumn "symbol = ?" = some "symbol" := by decide

theorem firstAssetById_singleton (r : Asset) : firstAssetById [r] = some r := rfl

/-- What `First` by name gives on a store whose `assets` table is ready. -/
theorem pgFirstAsset_by_name {s : PgState} (hr : tableReady s .Asset = none) (n : String) :
    pgFirstAsset s Asset.zero "name = ?" [.str n] =
      match firstAssetById (s.assets.filter fun r => r.Name = n) with
      | some row => (row, none)
      | none => (Asset.zero, some (.single .recordNotFound)) := by
  obtain ⟨T, hT, hcols⟩ := tableReady_eq_none hr
  have hname : ∃ c ∈ T.columns, c.name = "name" :=
    hcols ⟨"name", "varchar(255)", false⟩ (by simp [Model.fields])
  have hT' : (s.tables.find? fun T => T.name = "assets") = some T := hT
  unfold pgFirstAsset
  simp only [hT', whereColumn_name, if_pos hname, assetColumn_name]
  simp

/-- What a successful `InsertAsset` on `pg` did. -/
theorem InsertAsset_pg_success {s : PgState} {n d : String}
    (h : (InsertAsset pg s n d).2.2 = []) :
    tableReady s .Asset = none ∧
    (∀ r ∈ s.assets, r.Name ≠ n) ∧ (∀ r ∈ s.assets, r.Symbol ≠ "") ∧
    InsertAsset pg s n d =
      ({ s with assetsSeq := s.assetsSeq + 1,
                assets := s.assets ++ [⟨s.assetsSeq + 1, n, "", "", d⟩] },
       ⟨s.assetsSeq + 1, n, "", "", d⟩, []) := by
  have h' : GetErrors (pgCreateAsset s ⟨0, n, "", "", d⟩).2.2 = [] := h
  obtain ⟨hr, hv, hc⟩ := pgCreateAsset_success (a := ⟨0, n, "", "", d⟩) rfl h'
  obtain ⟨-, hname, hsym, -, -⟩ := assetViolation_eq_none hv
  refine ⟨hr, hname, hsym, ?_⟩
  show ((pgCreateAsset s ⟨0, n, "", "", d⟩).1, (pgCreateAsset s ⟨0, n, "", "", d⟩).2.1,
    GetErrors (pgCreateAsset s ⟨0, n, "", "", d⟩).2.2) = _
  rw [hc]
  rfl

/-- C4: over the store `pg`, if `InsertAsset(n, d)` succeeds then
`GetAssetByName(n)` on the store it leaves returns a nil error and an asset
with `Name` `n`, `Description` `d`, empty `Symbol` and `ISIN`, and a nonzero
`ID` equal to the `ID` of the asset `InsertAsset` returned. -/
theorem InsertAsset_then_GetAssetByName (s : PgState) (n d : String)
    (h : (InsertAsset pg s n d).2.2 = []) :
    (GetAssetByName pg (InsertAsset pg s n d).1 n).2 = none ∧
    (GetAssetByName pg (InsertAsset pg s n d).1 n).1.Name = n ∧
    (GetAssetByName pg (InsertAsset pg s n d).1 n).1.Description = d ∧
    (GetAssetByName pg (InsertAsset pg s n d).1 n).1.Symbol = "" ∧
    (GetAssetByName pg (InsertAsset pg s n d).1 n).1.ISIN = "" ∧
    (GetAssetByName pg (InsertAsset pg s n d).1 n).1.ID ≠ 0 ∧
    (GetAssetByName pg (InsertAsset pg s n d).1 n).1.ID = (InsertAsset pg s n d).2.1.ID := by
  obtain ⟨hr, hname, -, hins⟩ := InsertAsset_pg_success h
  have hfilter : (s.assets.filter fun r => r.Name = n) = [] := by
    rw [List.filter_eq_nil_iff]
    intro r hr'
    simpa using hname r hr'
  have hget : GetAssetByName pg (InsertAsset pg s n d).1 n =
      (⟨s.assetsSeq + 1, n, "", "", d⟩, none) := by
    rw [hins]
    unfold GetAssetByName
    rw [show pg.FirstAsset = pgFirstAsset from rfl,
      pgFirstAsset_by_name (by rw [← hr]; exact tableReady_congr _ rfl)]
    simp only [List.filter_append, hfilter, List.nil_append]
    simp [firstAssetById, Asset.zero]
  rw [hget, hins]
  simp

theorem assetViolation_of_symbol {rows : List Asset} {a : Asset}
    (h : ∃ r ∈ rows, r.Symbol = a.Symbol) : ∃ e, assetViolation rows a = some e := by
  unfold assetViolation
  repeat' split
  all_goals exact ⟨_, rfl⟩

theorem assetViolation_of_name {rows : List Asset} {a : Asset}
    (hn : a.Name.length ≤ 255) (hs : a.Symbol.length ≤ 255) (hi : a.ISIN.length ≤ 255)
    (h : ∃ r ∈ rows, r.Name = a.Name) :
    ∃ idx, assetViolation rows a = some (.uniqueViolation idx) := by
  unfold assetViolation
  rw [if_neg (by omega), if_neg (by omega), if_neg (by omega)]
  split
  · exact ⟨_, rfl⟩
  · exact ⟨_, rfl⟩

/-- What a `Create` of an asset with a zero key does when a check rejects it. -/
theorem pgCreateAsset_violation {s : PgState} {a : Asset} {e : DbError} (h0 : a.ID = 0)
    (hr : tableReady s .Asset = none)
    (hv : assetViolation s.assets { a with ID := s.assetsSeq + 1 } = some e) :
    pgCreateAsset s a = (s, a, some (.single e)) := by
  unfold pgCreateAsset
  simp [hr, h0, hv]

/-- With a row of empty `Symbol` in `assets`, `InsertAsset` fails and leaves the store. -/
theorem InsertAsset_pg_blocked {s : PgState} (n d : String)
    (h : ∃ r ∈ s.assets, r.Symbol = "") :
    (InsertAsset pg s n d).2.2 ≠ [] ∧ (InsertAsset pg s n d).1 = s := by
  show GetErrors (pgCreateAsset s ⟨0, n, "", "", d⟩).2.2 ≠ [] ∧
    (pgCreateAsset s ⟨0, n, "", "", d⟩).1 = s
  cases hr : tableReady s .Asset with
  | some e => simp [pgCreateAsset, hr, GetErrors]
  | none =>
    obtain ⟨e, he⟩ := assetViolation_of_symbol (a := ⟨s.assetsSeq + 1, n, "", "", d⟩) h
    rw [pgCreateAsset_violation rfl hr he]
    simp [GetErrors]

/-- The asset `InsertAsset` returns on `pg` has empty `Symbol` and `ISIN`. -/
theorem InsertAsset_pg_blank (s : PgState) (n d : String) :
    (InsertAsset pg s n d).2.1.Symbol = "" ∧ (InsertAsset pg s n d).2.1.ISIN = "" ∧
    (InsertAsset pg s n d).2.1.Name = n ∧ (InsertAsset pg s n d).2.1.Description = d := by
  show (pgCreateAsset s ⟨0, n, "", "", d⟩).2.1.Symbol = "" ∧
    (pgCreateAsset s ⟨0, n, "", "", d⟩).2.1.ISIN = "" ∧
    (pgCreateAsset s ⟨0, n, "", "", d⟩).2.1.Name = n ∧
    (pgCreateAsset s ⟨0, n, "", "", d⟩).2.1.Description = d
  unfold pgCreateAsset
  split
  · simp
  · rw [if_pos rfl]
    split <;> simp

/-- C5: over the store `pg`, which enforces the unique indexes declared on
`Asset`: if `InsertAsset(n, d1)` succeeds, a second `InsertAsset(n, d2)` returns
one error, a unique-index violation, and the store it leaves is the store
after the first insert: the first row is there, unchanged, and it is the only
row named `n`. -/
theorem InsertAsset_duplicate_name_rejected (s : PgState) (n d1 d2 : String)
    (h : (InsertAsset pg s n d1).2.2 = []) :
    (∃ idx, (InsertAsset pg (InsertAsset pg s n d1).1 n d2).2.2 = [.uniqueViolation idx]) ∧
    (InsertAsset pg (InsertAsset pg s n d1).1 n d2).1 = (InsertAsset pg s n d1).1 ∧
    (InsertAsset pg s n d1).2.1 ∈ (InsertAsset pg (InsertAsset pg s n d1).1 n d2).1.assets ∧
    (InsertAsset pg s n d1).2.1.Description = d1 ∧
    (∀ r ∈ (InsertAsset pg (InsertAsset pg s n d1).1 n d2).1.assets,
      r.Name = n → r = (InsertAsset pg s n d1).2.1) := by
  obtain ⟨hr, hname, -, hins⟩ := InsertAsset_pg_success h
  have hlen : n.length ≤ 255 := by
    have h' : GetErrors (pgCreateAsset s ⟨0, n, "", "", d1⟩).2.2 = [] := h
    exact (assetViolation_eq_none
      (pgCreateAsset_success (a := ⟨0, n, "", "", d1⟩) rfl h').2.1).2.2.2.2
  rw [hins]
  obtain ⟨idx, hidx⟩ := @assetViolation_of_name
    (s.assets ++ [⟨s.assetsSeq + 1, n, "", "", d1⟩])
    ⟨s.assetsSeq + 1 + 1, n, "", "", d2⟩ hlen
    (show "".length ≤ 255 by decide) (show "".length ≤ 255 by decide)
    ⟨⟨s.assetsSeq + 1, n, "", "", d1⟩, by simp, rfl⟩
  have h2 : InsertAsset pg
      { s with assetsSeq := s.assetsSeq + 1,
               assets := s.assets ++ [⟨s.assetsSeq + 1, n, "", "", d1⟩] } n d2 =
      ({ s with assetsSeq := s.assetsSeq + 1,
                assets := s.assets ++ [⟨s.assetsSeq + 1, n, "", "", d1⟩] },
       ⟨0, n, "", "", d2⟩, [.uniqueViolation idx]) := by
    show ((pgCreateAsset _ ⟨0, n, "", "", d2⟩).1, (pgCreateAsset _ ⟨0, n, "", "", d2⟩).2.1,
      GetErrors (pgCreateAsset _ ⟨0, n, "", "", d2⟩).2.2) = _
    rw [pgCreateAsset_violation rfl (by rw [← hr]; exact tableReady_congr _ rfl) hidx]
    rfl
  rw [h2]
  refine ⟨⟨idx, rfl⟩, rfl, by simp, rfl, ?_⟩
  intro r hmem hrn
  rcases List.mem_append.1 hmem with hold | hnew
  · exact absurd hrn (hname r hold)
  · simpa using hnew

/-! ## Theorems: records -/

theorem pgCreateAccount_struct {s : PgState} {a : Account} (h : a.ID ≠ 0) :
    (pgCreateAccount s a).2.1 = a := by
  unfold pgCreateAccount
  split
  · rfl
  · rw [if_neg h]; split <;> rfl

theorem pgSaveAccount_struct {s : PgState} {a : Account} (h : a.ID ≠ 0) :
    (pgSaveAccount s a).2.1 = a := by
  unfold pgSaveAccount
  rw [if_neg h]
  split
  · rfl
  · split
    · split <;> rfl
    · exact pgCreateAccount_struct h

theorem pgCreateAsset_struct {s : PgState} {a : Asset} (h : a.ID ≠ 0) :
    (pgCreateAsset s a).2.1 = a := by
  unfold pgCreateAsset
  split
  · rfl
  · rw [if_neg h]; split <;> rfl

theorem pgSaveAsset_struct {s : PgState} {a : Asset} (h : a.ID ≠ 0) :
    (pgSaveAsset s a).2.1 = a := by
  unfold pgSaveAsset
  rw [if_neg h]
  split
  · rfl
  · split
    · split <;> rfl
    · exact pgCreateAsset_struct h

theorem pgInsertRecord_struct (s : PgState) (r : Record) :
    ∃ id, (pgInsertRecord s r).2.1 = { r with ID := id } := by
  unfold pgInsertRecord
  repeat' split
  all_goals first
    | exact ⟨r.ID, rfl⟩
    | exact ⟨_, rfl⟩

theorem Account_ne_zero {a : Account} (h : a.ID ≠ 0) : a ≠ Account.zero :=
  fun e => h (by rw [e]; rfl)

theorem Asset_ne_zero {a : Asset} (h : a.ID ≠ 0) : a ≠ Asset.zero :=
  fun e => h (by rw [e]; rfl)

theorem pgSaveRefs_struct (s : PgState) (r : Record) (ha : r.Account.ID ≠ 0)
    (hs : r.Asset.ID ≠ 0) :
    (pgSaveRefs s r).2.1 = { r with AccountID := r.Account.ID, AssetID := r.Asset.ID } := by
  have hast : (match (pgSaveAccount s r.Account).2.2 with
      | none => pgSaveAsset (pgSaveAccount s r.Account).1 r.Asset
      | some _ => ((pgSaveAccount s r.Account).1, r.Asset,
          some (GormError.single DbError.inFailedTransaction))).2.1 = r.Asset := by
    split
    · exact pgSaveAsset_struct hs
    · rfl
  simp only [pgSaveRefs, if_neg (Account_ne_zero ha), if_neg (Asset_ne_zero hs),
    pgSaveAccount_struct ha, hast]

theorem stampCreatedAt_eq (s : PgState) (r : Record) :
    ∃ ts, stampCreatedAt s r = { r with CreatedAt := ts } ∧
      (r.CreatedAt ≠ Time.zero → ts = r.CreatedAt) ∧ (ts = r.CreatedAt ∨ ts = s.clock) := by
  unfold stampCreatedAt
  by_cases hz : r.CreatedAt = Time.zero
  · exact ⟨s.clock, by rw [if_pos hz], fun h => absurd hz h, Or.inr rfl⟩
  · exact ⟨r.CreatedAt, by rw [if_neg hz], fun _ => rfl, Or.inl rfl⟩

/-- The struct `Create` leaves for a record whose two belongs-to structs carry
a key: everything as handed in, but for the key, the two foreign keys, and a
zero `CreatedAt`. -/
theorem pgCreateRecord_struct (s : PgState) (r : Record) (ha : r.Account.ID ≠ 0)
    (hs : r.Asset.ID ≠ 0) :
    ∃ id ts, (pgCreateRecord s r).2.1 =
        { r with ID := id, AccountID := r.Account.ID, AssetID := r.Asset.ID, CreatedAt := ts } ∧
      (r.CreatedAt ≠ Time.zero → ts = r.CreatedAt) ∧ (ts = r.CreatedAt ∨ ts = s.clock) := by
  obtain ⟨ts, hts, h1, h2⟩ := stampCreatedAt_eq s (pgSaveRefs s r).2.1
  obtain ⟨id, hid⟩ := pgInsertRecord_struct (pgSaveRefs s r).1 (stampCreatedAt s (pgSaveRefs s r).2.1)
  rw [pgSaveRefs_struct s r ha hs] at h1 h2
  have key : (pgInsertRecord (pgSaveRefs s r).1 (stampCreatedAt s (pgSaveRefs s r).2.1)).2.1 =
      { r with ID := id, AccountID := r.Account.ID, AssetID := r.Asset.ID, CreatedAt := ts } := by
    rw [hid, hts, pgSaveRefs_struct s r ha hs]
  unfold pgCreateRecord
  split
  · split
    · exact ⟨id, ts, key, h1, h2⟩
    · exact ⟨id, ts, key, h1, h2⟩
  · exact ⟨r.ID, r.CreatedAt, by rw [pgSaveRefs_struct s r ha hs], fun _ => rfl, Or.inl rfl⟩

theorem pgCreateAccount_stored {s : PgState} {a : Account}
    (h : GetErrors (pgCreateAccount s a).2.2 = []) :
    (pgCreateAccount s a).2.1 ∈ (pgCreateAccount s a).1.accounts := by
  unfold pgCreateAccount at h ⊢
  split at h
  · simp [GetErrors] at h
  · next hr =>
    try simp only [hr]
    by_cases h0 : a.ID = 0
    · simp only [h0, if_true] at h ⊢
      split at h
      · simp [GetErrors] at h
      · next hv => simp [hv]
    · simp only [h0, if_false] at h ⊢
      split at h
      · simp [GetErrors] at h
      · next hv => simp [hv]

theorem pgSaveAccount_stored {s : PgState} {a : Account}
    (h : GetErrors (pgSaveAccount s a).2.2 = []) :
    (pgSaveAccount s a).2.1 ∈ (pgSaveAccount s a).1.accounts := by
  unfold pgSaveAccount at h ⊢
  by_cases h0 : a.ID = 0
  · simp only [h0, if_true] at h ⊢
    exact pgCreateAccount_stored h
  · simp only [h0, if_false] at h ⊢
    split at h
    · simp [GetErrors] at h
    · next hr =>
      try simp only [hr]
      by_cases hex : ∃ r ∈ s.accounts, r.ID = a.ID
      · simp only [hex, if_true] at h ⊢
        split at h
        · simp [GetErrors] at h
        · next hv =>
          try simp only [hv]
          obtain ⟨r, hr', hid⟩ := hex
          exact List.mem_map.2 ⟨r, hr', by simp [hid]⟩
      · simp only [hex, if_false] at h ⊢
        exact pgCreateAccount_stored h

theorem pgCreateAsset_stored {s : PgState} {a : Asset}
    (h : GetErrors (pgCreateAsset s a).2.2 = []) :
    (pgCreateAsset s a).2.1 ∈ (pgCreateAsset s a).1.assets ∧
    (pgCreateAsset s a).1.accounts = s.accounts := by
  unfold pgCreateAsset at h ⊢
  split at h
  · simp [GetErrors] at h
  · next hr =>
    try simp only [hr]
    by_cases h0 : a.ID = 0
    · simp only [h0, if_true] at h ⊢
      split at h
      · simp [GetErrors] at h
      · next hv => simp [hv]
    · simp only [h0, if_false] at h ⊢
      split at h
      · simp [GetErrors] at h
      · next hv => simp [hv]

theorem pgSaveAsset_stored {s : PgState} {a : Asset}
    (h : GetErrors (pgSaveAsset s a).2.2 = []) :
    (pgSaveAsset s a).2.1 ∈ (pgSaveAsset s a).1.assets ∧
    (pgSaveAsset s a).1.accounts = s.accounts := by
  unfold pgSaveAsset at h ⊢
  by_cases h0 : a.ID = 0
  · simp only [h0, if_true] at h ⊢
    exact pgCreateAsset_stored h
  · simp only [h0, if_false] at h ⊢
    split at h
    · simp [GetErrors] at h
    · next hr =>
      try simp only [hr]
      by_cases hex : ∃ r ∈ s.assets, r.ID = a.ID
      · simp only [hex, if_true] at h ⊢
        split at h
        · simp [GetErrors] at h
        · next hv =>
          try simp only [hv]
          obtain ⟨r, hr', hid⟩ := hex
          exact ⟨List.mem_map.2 ⟨r, hr', by simp [hid]⟩, trivial⟩
      · simp only [hex, if_false] at h ⊢
        exact pgCreateAsset_stored h

theorem pgInsertRecord_stored {s : PgState} {r : Record}
    (h : (pgInsertRecord s r).2.2 = none) :
    r.row (pgInsertRecord s r).2.1.ID ∈ (pgInsertRecord s r).1.records ∧
    (pgInsertRecord s r).1.accounts = s.accounts ∧
    (pgInsertRecord s r).1.assets = s.assets := by
  unfold pgInsertRecord at h ⊢
  split at h
  · simp at h
  · next hv =>
    try simp only [hv]
    by_cases h0 : r.ID = 0
    · simp only [h0, if_true] at h ⊢
      split at h
      · simp at h
      · next hx => simp [hx]
    · simp only [h0, if_false] at h ⊢
      split at h
      · simp at h
      · next hx => simp [hx]

theorem GetErrors_ofErrors (es : List DbError) : GetErrors (ofErrors es) = es := by
  match es with
  | [] => rfl
  | [_] => rfl
  | _ :: _ :: _ => rfl

theorem pgSaveRefs_success {s : PgState} {r : Record} (ha : r.Account.ID ≠ 0)
    (hs : r.Asset.ID ≠ 0) (h : (pgSaveRefs s r).2.2 = []) :
    GetErrors (pgSaveAccount s r.Account).2.2 = [] ∧
    GetErrors (pgSaveAsset (pgSaveAccount s r.Account).1 r.Asset).2.2 = [] ∧
    (pgSaveRefs s r).1 = (pgSaveAsset (pgSaveAccount s r.Account).1 r.Asset).1 := by
  unfold pgSaveRefs at h ⊢
  simp only [if_neg (Account_ne_zero ha), if_neg (Asset_ne_zero hs)] at h ⊢
  cases hacc : (pgSaveAccount s r.Account).2.2 with
  | none =>
    simp only [hacc] at h
    simp only [GetErrors, List.nil_append] at h
    refine ⟨rfl, ?_, ?_⟩
    · simpa only [hacc] using h
    · simp only [hacc]
  | some g =>
    simp only [hacc] at h
    simp [GetErrors] at h

theorem pgCreateRecord_success {s : PgState} {r : Record}
    (h : GetErrors (pgCreateRecord s r).2.2 = []) :
    (pgSaveRefs s r).2.2 = [] ∧
    (pgInsertRecord (pgSaveRefs s r).1 (stampCreatedAt s (pgSaveRefs s r).2.1)).2.2 = none ∧
    (pgCreateRecord s r).1 =
      (pgInsertRecord (pgSaveRefs s r).1 (stampCreatedAt s (pgSaveRefs s r).2.1)).1 ∧
    (pgCreateRecord s r).2.1 =
      (pgInsertRecord (pgSaveRefs s r).1 (stampCreatedAt s (pgSaveRefs s r).2.1)).2.1 := by
  unfold pgCreateRecord at h ⊢
  split at h
  · next hrefs =>
    split at h
    · next hins => simp [hrefs, hins]
    · simp [GetErrors] at h
  · rw [GetErrors_ofErrors] at h
    simp at h

theorem stampCreatedAt_fields (s : PgState) (r : Record) :
    (stampCreatedAt s r).AccountID = r.AccountID ∧ (stampCreatedAt s r).AssetID = r.AssetID ∧
    (stampCreatedAt s r).Type_ = r.Type_ ∧ (stampCreatedAt s r).Quantity = r.Quantity := by
  unfold stampCreatedAt
  split <;> exact ⟨rfl, rfl, rfl, rfl⟩

/-- C6, as the code has it: for an account `a` and an asset `s` with nonzero
ids and a `createdAt` other than the zero time, `InsertRecord` on `pg` returns
a record whose `Account` is `a`, `Asset` is `s`, `Type` is `t`, `CreatedAt` is
`c`, `Quantity` is `q`, with `AccountID = a.ID` and `AssetID = s.ID`; when the
insert succeeds, the store holds `a`, `s` and a `records` row with that key and
those two foreign keys. -/
theorem InsertRecord_links_rows (s : PgState) (a : Account) (ast : Asset) (t : RecordType)
    (c : Time) (q : Int) (ha : a.ID ≠ 0) (hs : ast.ID ≠ 0) (hc : c ≠ Time.zero) :
    (InsertRecord pg s a ast t c q).2.1.Account = a ∧
    (InsertRecord pg s a ast t c q).2.1.Asset = ast ∧
    (InsertRecord pg s a ast t c q).2.1.Type_ = t ∧
    (InsertRecord pg s a ast t c q).2.1.CreatedAt = c ∧
    (InsertRecord pg s a ast t c q).2.1.Quantity = q ∧
    (InsertRecord pg s a ast t c q).2.1.AccountID = a.ID ∧
    (InsertRecord pg s a ast t c q).2.1.AssetID = ast.ID ∧
    ((InsertRecord pg s a ast t c q).2.2 = [] →
      a ∈ (InsertRecord pg s a ast t c q).1.accounts ∧
      ast ∈ (InsertRecord pg s a ast t c q).1.assets ∧
      (⟨(InsertRecord pg s a ast t c q).2.1.ID, a.ID, ast.ID, t.val, c, q⟩ : RecordRow) ∈
        (InsertRecord pg s a ast t c q).1.records) := by
  have hI : InsertRecord pg s a ast t c q =
      ((pgCreateRecord s ⟨0, a, 0, ast, 0, t, c, q⟩).1, (pgCreateRecord s ⟨0, a, 0, ast, 0, t, c, q⟩).2.1,
       GetErrors (pgCreateRecord s ⟨0, a, 0, ast, 0, t, c, q⟩).2.2) := rfl
  obtain ⟨id, ts, hrec, hts, -⟩ := pgCreateRecord_struct s ⟨0, a, 0, ast, 0, t, c, q⟩ ha hs
  have htc : ts = c := hts hc
  subst htc
  rw [hI]
  refine ⟨by rw [hrec], by rw [hrec], by rw [hrec], by rw [hrec], by rw [hrec], by rw [hrec],
    by rw [hrec], ?_⟩
  intro hok
  have hok' : GetErrors (pgCreateRecord s ⟨0, a, 0, ast, 0, t, ts, q⟩).2.2 = [] := hok
  show a ∈ (pgCreateRecord s ⟨0, a, 0, ast, 0, t, ts, q⟩).1.accounts ∧
    ast ∈ (pgCreateRecord s ⟨0, a, 0, ast, 0, t, ts, q⟩).1.assets ∧
    (⟨(pgCreateRecord s ⟨0, a, 0, ast, 0, t, ts, q⟩).2.1.ID, a.ID, ast.ID, t.val, ts, q⟩ : RecordRow)
      ∈ (pgCreateRecord s ⟨0, a, 0, ast, 0, t, ts, q⟩).1.records
  obtain ⟨hrefs, hins, hst, -⟩ := pgCreateRecord_success hok'
  obtain ⟨hacc, hasset, hrst⟩ := pgSaveRefs_success ha hs hrefs
  obtain ⟨hrow, haccs, hassets⟩ := pgInsertRecord_stored hins
  have h1 := pgSaveAccount_stored hacc
  have h2 := pgSaveAsset_stored hasset
  rw [pgSaveAccount_struct ha] at h1
  rw [pgSaveAsset_struct hs] at h2
  have hstamp : stampCreatedAt s (pgSaveRefs s ⟨0, a, 0, ast, 0, t, ts, q⟩).2.1 =
      ⟨0, a, a.ID, ast, ast.ID, t, ts, q⟩ := by
    rw [pgSaveRefs_struct s _ ha hs]
    unfold stampCreatedAt
    rw [if_neg hc]
  rw [hrec, hst, haccs, hassets, hrst]
  refine ⟨by rw [h2.2]; exact h1, h2.1, ?_⟩
  have hid : (pgInsertRecord (pgSaveRefs s ⟨0, a, 0, ast, 0, t, ts, q⟩).1
      (stampCreatedAt s (pgSaveRefs s ⟨0, a, 0, ast, 0, t, ts, q⟩).2.1)).2.1.ID = id := by
    have := (pgCreateRecord_success hok').2.2.2
    rw [← this, hrec]
  rw [hid, hstamp, hrst] at hrow
  rw [hstamp]
  exact hrow

/-! ## Theorems: running `CreateTables` twice -/

/-! ### `addColumns` -/

theorem addColumns_subset (s : PgState) (rows : Bool) (table : String) (fields : List Field) :
    ∀ (cols : List Column) (c : Column), c ∈ cols → c ∈ (addColumns s rows table fields cols).1 := by
  induction fields with
  | nil => intro cols c hc; exact hc
  | cons f fs ih =>
    intro cols c hc
    unfold addColumns
    split
    · exact ih cols c hc
    · split
      · exact hc
      · split
        · exact hc
        · exact ih _ c (List.mem_append_left _ hc)

theorem addColumns_mem (s : PgState) (rows : Bool) (table : String) (fields : List Field) :
    ∀ (cols : List Column) (c : Column), c ∈ (addColumns s rows table fields cols).1 →
      c ∈ cols ∨ ∃ f ∈ fields, c = f.column ∧ ¬ ∃ c' ∈ cols, c'.name = f.dbName := by
  induction fields with
  | nil => intro cols c hc; exact Or.inl hc
  | cons f fs ih =>
    intro cols c hc
    unfold addColumns at hc
    split at hc
    · rcases ih cols c hc with h | ⟨g, hg, hcg, hno⟩
      · exact Or.inl h
      · exact Or.inr ⟨g, List.mem_cons_of_mem _ hg, hcg, hno⟩
    · next hmiss =>
      split at hc
      · exact Or.inl hc
      · split at hc
        · exact Or.inl hc
        · rcases ih _ c hc with h | ⟨g, hg, hcg, hno⟩
          · rcases List.mem_append.1 h with h | h
            · exact Or.inl h
            · refine Or.inr ⟨f, List.mem_cons_self _ _, by simpa using h, hmiss⟩
          · refine Or.inr ⟨g, List.mem_cons_of_mem _ hg, hcg, ?_⟩
            rintro ⟨c', hc', hn⟩
            exact hno ⟨c', List.mem_append_left _ hc', hn⟩

theorem addColumns_of_present (s : PgState) (rows : Bool) (table : String) (fields : List Field)
    (cols : List Column) (h : ∀ f ∈ fields, ∃ c ∈ cols, c.name = f.dbName) :
    addColumns s rows table fields cols = (cols, none) := by
  induction fields with
  | nil => rfl
  | cons f fs ih =>
    unfold addColumns
    rw [if_pos (h f (List.mem_cons_self _ _))]
    exact ih fun g hg => h g (List.mem_cons_of_mem _ hg)

/-- With every type known and no `NOT NULL` column to add to a table that has
rows, `addColumns` reports no error and leaves a column for every field. -/
theorem addColumns_complete (s : PgState) (rows : Bool) (table : String) (fields : List Field)
    (hty : ∀ f ∈ fields, typeExists s f.sqlType)
    (hnn : ∀ f ∈ fields, f.notNull = true → rows = false) :
    ∀ cols : List Column, (addColumns s rows table fields cols).2 = none ∧
      ∀ f ∈ fields, ∃ c ∈ (addColumns s rows table fields cols).1, c.name = f.dbName := by
  induction fields with
  | nil => intro cols; exact ⟨rfl, fun f hf => absurd hf (List.not_mem_nil f)⟩
  | cons f fs ih =>
    intro cols
    have ih' := ih (fun g hg => hty g (List.mem_cons_of_mem _ hg))
      (fun g hg => hnn g (List.mem_cons_of_mem _ hg))
    have hnot : ¬ (f.notNull = true ∧ rows = true) := by
      rintro ⟨h1, h2⟩
      have := hnn f (List.mem_cons_self _ _) h1
      rw [this] at h2
      exact absurd h2 (by decide)
    unfold addColumns
    split
    · next hpres =>
      refine ⟨(ih' cols).1, fun g hg => ?_⟩
      rcases List.mem_cons.1 hg with rfl | hg
      · obtain ⟨c, hc, hn⟩ := hpres
        exact ⟨c, addColumns_subset s rows table fs cols c hc, hn⟩
      · exact (ih' cols).2 g hg
    · rw [if_neg (not_not.2 (hty f (List.mem_cons_self _ _)))]
      try rw [if_neg hnot]
      refine ⟨(ih' _).1, fun g hg => ?_⟩
      rcases List.mem_cons.1 hg with rfl | hg
      · exact ⟨g.column, addColumns_subset s rows table fs _ _ (by simp), rfl⟩
      · exact (ih' _).2 g hg

/-- Under the same conditions, a field that has no column yet, and is the only
field of its name, gets exactly its column. -/
theorem addColumns_adds (s : PgState) (rows : Bool) (table : String) (fields : List Field)
    (hty : ∀ f ∈ fields, typeExists s f.sqlType)
    (hnn : ∀ f ∈ fields, f.notNull = true → rows = false) (f0 : Field)
    (huniq : ∀ f ∈ fields, f.dbName = f0.dbName → f = f0) (hf0 : f0 ∈ fields) :
    ∀ cols : List Column, (¬ ∃ c ∈ cols, c.name = f0.dbName) →
      f0.column ∈ (addColumns s rows table fields cols).1 := by
  induction fields with
  | nil => exact absurd hf0 (List.not_mem_nil f0)
  | cons f fs ih =>
    intro cols hmiss
    have hnot : ¬ (f.notNull = true ∧ rows = true) := by
      rintro ⟨h1, h2⟩
      have := hnn f (List.mem_cons_self _ _) h1
      rw [this] at h2
      exact absurd h2 (by decide)
    by_cases hff : f = f0
    · subst hff
      unfold addColumns
      rw [if_neg hmiss, if_neg (not_not.2 (hty f (List.mem_cons_self _ _))), if_neg hnot]
      exact addColumns_subset s rows table fs _ _ (by simp)
    · have hf0' : f0 ∈ fs := by
        rcases List.mem_cons.1 hf0 with h | h
        · exact absurd h.symm hff
        · exact h
      have hname : f.dbName ≠ f0.dbName := fun h => hff (huniq f (List.mem_cons_self _ _) h)
      have ih' := ih (fun g hg => hty g (List.mem_cons_of_mem _ hg))
        (fun g hg => hnn g (List.mem_cons_of_mem _ hg))
        (fun g hg => huniq g (List.mem_cons_of_mem _ hg)) hf0'
      unfold addColumns
      split
      · exact ih' cols hmiss
      · rw [if_neg (not_not.2 (hty f (List.mem_cons_self _ _)))]
        try rw [if_neg hnot]
        apply ih'
        rintro ⟨c, hc, hn⟩
        rcases List.mem_append.1 hc with h | h
        · exact hmiss ⟨c, h, hn⟩
        · have : c = f.column := by simpa using h
          rw [this] at hn
          exact hname hn

/-! ### The fields of the four models -/

theorem fields_type (m : Model) :
    ∀ f ∈ m.fields, foldIdent f.sqlType ∈ builtinTypes ∨
      (m = .AssetValue ∧ f = granularityField) ∨ (m = .Record ∧ f = typeField) := by
  cases m <;> decide

theorem fields_granularity (m : Model) :
    ∀ f ∈ m.fields, (foldIdent f.sqlType = "granularity" ∨ f.dbName = "granularity") →
      m = .AssetValue ∧ f = granularityField := by
  cases m <;> decide

theorem fields_record_type (m : Model) :
    ∀ f ∈ m.fields, (foldIdent f.sqlType = "record_type" ∨ f.dbName = "type") →
      m = .Record ∧ f = typeField := by
  cases m <;> decide

theorem fields_notNull (m : Model) :
    ∀ f ∈ m.fields, f.notNull = true → m = .AssetValue ∨ m = .Record := by
  cases m <;> decide

theorem table_injective (m m' : Model) (h : m.table = m'.table) : m = m' := by
  revert h; cases m <;> cases m' <;> decide

theorem granularityField_mem : granularityField ∈ Model.AssetValue.fields := by decide

theorem typeField_mem : typeField ∈ Model.Record.fields := by decide

theorem settled_types {u : PgState} (hu : Settled u) (m : Model) :
    ∀ f ∈ m.fields, typeExists u f.sqlType := by
  intro f hf
  rcases fields_type m f hf with h | ⟨-, rfl⟩ | ⟨-, rfl⟩
  · exact Or.inl h
  · exact Or.inr hu.1
  · exact Or.inr hu.2.1

theorem settled_rows {u : PgState} (hu : Settled u) (m : Model) :
    ∀ f ∈ m.fields, f.notNull = true → hasRows u m = false := by
  intro f hf hn
  rcases fields_notNull m f hf hn with rfl | rfl
  · simp [hasRows, hu.2.2.1]
  · simp [hasRows, hu.2.2.2]

theorem find_table_eq_none {L : List Table} {n : String} :
    (L.find? fun T => T.name = n) = none ↔ ¬ ∃ T ∈ L, T.name = n := by
  rw [List.find?_eq_none]
  simp

theorem pgAutoMigrate_of_exists {u : PgState} (hu : Settled u) (m : Model)
    (h : ∃ T ∈ u.tables, T.name = m.table) :
    pgAutoMigrate u m = ({ u with tables := u.tables.map (migrateTable u m) }, none) := by
  unfold pgAutoMigrate
  split
  · next hnone => exact absurd h (find_table_eq_none.1 hnone)
  · next T hT =>
    rw [(addColumns_complete u (hasRows u m) m.table m.fields (settled_types hu m)
      (settled_rows hu m) T.columns).1]
    rfl

theorem pgAutoMigrate_of_not_exists {u : PgState} (hu : Settled u) (m : Model)
    (h : ¬ ∃ T ∈ u.tables, T.name = m.table) :
    pgAutoMigrate u m =
      ({ u with tables := u.tables ++ [⟨m.table, m.fields.map Field.column⟩] }, none) := by
  unfold pgAutoMigrate
  rw [find_table_eq_none.2 h]
  have hall : (m.fields.find? fun f => ¬ typeExists u f.sqlType) = none := by
    rw [List.find?_eq_none]
    intro f hf
    simpa using settled_types hu m f hf
  simp only [hall]

theorem pgAutoMigrate_settled {u : PgState} (hu : Settled u) (m : Model) :
    Settled (pgAutoMigrate u m).1 ∧ (pgAutoMigrate u m).2 = none := by
  by_cases h : ∃ T ∈ u.tables, T.name = m.table
  · rw [pgAutoMigrate_of_exists hu m h]; exact ⟨hu, rfl⟩
  · rw [pgAutoMigrate_of_not_exists hu m h]; exact ⟨hu, rfl⟩

theorem afterTypes_tables (s : PgState) :
    (afterTypes s).tables =
      s.tables.map fun T => dropColumns "record_type" (dropColumns "granularity" T) := by
  simp only [afterTypes, dropTypeCascade, List.map_map]
  rfl

theorem afterTypes_settled {s : PgState} (h : s.assetValues = [] ∧ s.records = []) :
    Settled (afterTypes s) := by
  refine ⟨?_, ?_, ?_, ?_⟩
  · rw [afterTypes_enums]; exact ⟨("granularity", granularityLabels), by simp, rfl⟩
  · rw [afterTypes_enums]; exact ⟨("record_type", recordTypeLabels), by simp, rfl⟩
  · simp [afterTypes, dropTypeCascade, h.1]
  · simp [afterTypes, dropTypeCascade, h.2]

theorem afterTypes_frame (s : PgState) :
    (afterTypes s).accounts = s.accounts ∧ (afterTypes s).assets = s.assets ∧
    (afterTypes s).accountsSeq = s.accountsSeq ∧ (afterTypes s).assetsSeq = s.assetsSeq ∧
    (afterTypes s).assetValuesSeq = s.assetValuesSeq ∧ (afterTypes s).recordsSeq = s.recordsSeq ∧
    (afterTypes s).clock = s.clock :=
  ⟨rfl, rfl, rfl, rfl, rfl, rfl, rfl⟩

theorem migrateTable_name (u : PgState) (m : Model) (T : Table) :
    (migrateTable u m T).name = T.name := by
  unfold migrateTable; split <;> rfl

theorem migrateTable_of_ne {u : PgState} {m : Model} {T : Table} (h : T.name ≠ m.table) :
    migrateTable u m T = T := by
  unfold migrateTable; rw [if_neg h]

theorem migrateTable_of_present {u : PgState} {m : Model} {T : Table}
    (h : ∀ f ∈ m.fields, ∃ c ∈ T.columns, c.name = f.dbName) : migrateTable u m T = T := by
  unfold migrateTable
  split
  · rw [addColumns_of_present _ _ _ _ _ h]
  · rfl

theorem dropColumns_of_none {ty : String} {T : Table} (h : ∀ c ∈ T.columns, c.type ≠ ty) :
    dropColumns ty T = T := by
  unfold dropColumns
  have : (T.columns.filter fun c => c.type ≠ ty) = T.columns := by
    rw [List.filter_eq_self]
    intro c hc
    simpa using h c hc
  rw [this]

/-- The property `EnumColumn` survives `AutoMigrate`, given what the models' fields are. -/
theorem EnumColumn_migrateTable {ty table col : String} {f0 : Field} (m0 : Model)
    (hm0 : m0.table = table)
    (hfields : ∀ m : Model, ∀ f ∈ m.fields, (foldIdent f.sqlType = ty ∨ f.dbName = col) →
      m = m0 ∧ f = f0)
    (hf0 : f0.column = ⟨col, ty⟩)
    (u : PgState) (m : Model) (T : Table) (h : EnumColumn ty table col T) :
    EnumColumn ty table col (migrateTable u m T) := by
  unfold migrateTable
  split
  · next hname =>
    have hnew : ∀ c ∈ (addColumns u (hasRows u m) m.table m.fields T.columns).1,
        c ∈ T.columns ∨ (m = m0 ∧ c = ⟨col, ty⟩ ∧ ¬ ∃ c' ∈ T.columns, c'.name = col) ∨
          (c.type ≠ ty ∧ c.name ≠ col) := by
      intro c hc
      rcases addColumns_mem _ _ _ _ _ _ hc with h1 | ⟨f, hf, rfl, hmiss⟩
      · exact Or.inl h1
      · by_cases hty : foldIdent f.sqlType = ty ∨ f.dbName = col
        · obtain ⟨rfl, rfl⟩ := hfields m f hf hty
          have hn : f.dbName = col := by
            have := congrArg Column.name hf0
            exact this
          refine Or.inr (Or.inl ⟨rfl, hf0, ?_⟩)
          rw [← hn]; exact hmiss
        · refine Or.inr (Or.inr ⟨fun h => hty (Or.inl h), fun h => hty (Or.inr h)⟩)
    constructor
    · intro c hc hcty
      rcases hnew c hc with h1 | ⟨rfl, rfl, -⟩ | ⟨h3, -⟩
      · exact h.1 c h1 hcty
      · exact ⟨by rw [hname, hm0], rfl⟩
      · exact absurd hcty h3
    · rintro ⟨c, hc, hcty⟩ c' hc' hn'
      rcases hnew c' hc' with h1' | ⟨-, rfl, -⟩ | ⟨-, h3'⟩
      · rcases hnew c hc with h1 | ⟨-, -, hmiss⟩ | ⟨h3, -⟩
        · exact h.2 ⟨c, h1, hcty⟩ c' h1' hn'
        · exact absurd ⟨c', h1', hn'⟩ hmiss
        · exact absurd hcty h3
      · rfl
      · exact absurd hn' h3'
  · exact h

theorem EnumColumn_fresh {ty table col : String} {f0 : Field} (m0 : Model)
    (hm0 : m0.table = table)
    (hfields : ∀ m : Model, ∀ f ∈ m.fields, (foldIdent f.sqlType = ty ∨ f.dbName = col) →
      m = m0 ∧ f = f0)
    (hf0 : f0.column = ⟨col, ty⟩) (m : Model) :
    EnumColumn ty table col ⟨m.table, m.fields.map Field.column⟩ := by
  constructor
  · intro c hc hcty
    obtain ⟨f, hf, rfl⟩ := List.mem_map.1 hc
    obtain ⟨rfl, rfl⟩ := hfields m f hf (Or.inl hcty)
    exact ⟨hm0, congrArg Column.name hf0⟩
  · rintro - c hc hn
    obtain ⟨f, hf, rfl⟩ := List.mem_map.1 hc
    obtain ⟨rfl, rfl⟩ := hfields m f hf (Or.inr hn)
    exact congrArg Column.type hf0

theorem EnumColumn_of_none {ty table col : String} {T : Table}
    (h : ∀ c ∈ T.columns, c.type ≠ ty) : EnumColumn ty table col T :=
  ⟨fun c hc hcty => absurd hcty (h c hc), fun ⟨c, hc, hcty⟩ => absurd hcty (h c hc)⟩

theorem EnumColumnsOk_migrateTable (u : PgState) (m : Model) (T : Table) (h : EnumColumnsOk T) :
    EnumColumnsOk (migrateTable u m T) :=
  ⟨EnumColumn_migrateTable .AssetValue rfl fields_granularity (by decide) u m T h.1,
   EnumColumn_migrateTable .Record rfl fields_record_type (by decide) u m T h.2⟩

theorem EnumColumnsOk_fresh (m : Model) : EnumColumnsOk ⟨m.table, m.fields.map Field.column⟩ :=
  ⟨EnumColumn_fresh .AssetValue rfl fields_granularity (by decide) m,
   EnumColumn_fresh .Record rfl fields_record_type (by decide) m⟩

theorem EnumColumnsOk_afterTypes (s : PgState) : ∀ T ∈ (afterTypes s).tables, EnumColumnsOk T := by
  intro T hT
  rw [afterTypes_tables] at hT
  obtain ⟨T0, -, rfl⟩ := List.mem_map.1 hT
  constructor
  · apply EnumColumn_of_none
    intro c hc
    have h1 := (List.mem_filter.1 hc).1
    have h2 := (List.mem_filter.1 h1).2
    simpa using h2
  · apply EnumColumn_of_none
    intro c hc
    have h2 := (List.mem_filter.1 hc).2
    simpa using h2

theorem EnumColumnsOk_pgAutoMigrate {u : PgState} (hu : Settled u) (m : Model)
    (h : ∀ T ∈ u.tables, EnumColumnsOk T) : ∀ T ∈ (pgAutoMigrate u m).1.tables, EnumColumnsOk T := by
  intro T hT
  by_cases hex : ∃ T ∈ u.tables, T.name = m.table
  · rw [pgAutoMigrate_of_exists hu m hex] at hT
    obtain ⟨T0, hT0, rfl⟩ := List.mem_map.1 hT
    exact EnumColumnsOk_migrateTable u m T0 (h T0 hT0)
  · rw [pgAutoMigrate_of_not_exists hu m hex] at hT
    rcases List.mem_append.1 hT with h1 | h1
    · exact h T h1
    · have : T = ⟨m.table, m.fields.map Field.column⟩ := by simpa using h1
      rw [this]
      exact EnumColumnsOk_fresh m

theorem Complete_pgAutoMigrate_self {u : PgState} (hu : Settled u) (m : Model) :
    Complete (pgAutoMigrate u m).1 m := by
  by_cases hex : ∃ T ∈ u.tables, T.name = m.table
  · rw [pgAutoMigrate_of_exists hu m hex]
    constructor
    · obtain ⟨T, hT, hn⟩ := hex
      exact ⟨migrateTable u m T, List.mem_map_of_mem _ hT, by rw [migrateTable_name, hn]⟩
    · intro T hT hn f hf
      obtain ⟨T0, -, rfl⟩ := List.mem_map.1 hT
      rw [migrateTable_name] at hn
      unfold migrateTable
      rw [if_pos hn]
      exact (addColumns_complete u (hasRows u m) m.table m.fields (settled_types hu m)
        (settled_rows hu m) T0.columns).2 f hf
  · rw [pgAutoMigrate_of_not_exists hu m hex]
    constructor
    · exact ⟨⟨m.table, m.fields.map Field.column⟩, by simp, rfl⟩
    · intro T hT hn f hf
      rcases List.mem_append.1 hT with h1 | h1
      · exact absurd ⟨T, h1, hn⟩ hex
      · have : T = ⟨m.table, m.fields.map Field.column⟩ := by simpa using h1
        rw [this]
        exact ⟨f.column, List.mem_map_of_mem _ hf, rfl⟩

theorem Complete_pgAutoMigrate_mono {u : PgState} (hu : Settled u) (m m' : Model)
    (h : Complete u m) : Complete (pgAutoMigrate u m').1 m := by
  by_cases hmm : m' = m
  · subst hmm; exact Complete_pgAutoMigrate_self hu m'
  have hne : m.table ≠ m'.table := fun h => hmm (table_injective _ _ h).symm
  by_cases hex : ∃ T ∈ u.tables, T.name = m'.table
  · rw [pgAutoMigrate_of_exists hu m' hex]
    constructor
    · obtain ⟨T, hT, hn⟩ := h.1
      exact ⟨migrateTable u m' T, List.mem_map_of_mem _ hT, by rw [migrateTable_name, hn]⟩
    · intro T hT hn f hf
      obtain ⟨T0, hT0, rfl⟩ := List.mem_map.1 hT
      rw [migrateTable_name] at hn
      rw [migrateTable_of_ne (by rw [hn]; exact hne)]
      exact h.2 T0 hT0 hn f hf
  · rw [pgAutoMigrate_of_not_exists hu m' hex]
    constructor
    · obtain ⟨T, hT, hn⟩ := h.1
      exact ⟨T, List.mem_append_left _ hT, hn⟩
    · intro T hT hn f hf
      rcases List.mem_append.1 hT with h1 | h1
      · exact h.2 T h1 hn f hf
      · have : T = ⟨m'.table, m'.fields.map Field.column⟩ := by simpa using h1
        rw [this] at hn
        exact absurd hn.symm hne

theorem dropColumns_name (ty : String) (T : Table) : (dropColumns ty T).name = T.name := rfl

theorem migrateTable_id {u : PgState} {m : Model} {T : Table}
    (h : T.name = m.table → ∀ f ∈ m.fields, ∃ c ∈ T.columns, c.name = f.dbName) :
    migrateTable u m T = T := by
  by_cases hn : T.name = m.table
  · exact migrateTable_of_present (h hn)
  · exact migrateTable_of_ne hn

/-- Dropping the columns of an enum type from the table that uses it and
migrating the table again gives back the same set of columns. -/
theorem readd_columns {ty col : String} {f0 : Field} {m : Model} {u : PgState} (hu : Settled u)
    (hf0m : f0 ∈ m.fields) (hf0 : f0.column = ⟨col, ty⟩)
    (hfields : ∀ f ∈ m.fields, (foldIdent f.sqlType = ty ∨ f.dbName = col) → f = f0)
    {T : Table} (hname : T.name = m.table) (hE : EnumColumn ty m.table col T)
    (hK : ∀ f ∈ m.fields, ∃ c ∈ T.columns, c.name = f.dbName) (c : Column) :
    c ∈ (migrateTable u m (dropColumns ty T)).columns ↔ c ∈ T.columns := by
  have hcol : f0.dbName = col := congrArg Column.name hf0
  have hfty : foldIdent f0.sqlType = ty := congrArg Column.type hf0
  unfold migrateTable
  rw [if_pos (by rw [dropColumns_name]; exact hname)]
  show c ∈ (addColumns u (hasRows u m) m.table m.fields
    (T.columns.filter fun c => c.type ≠ ty)).1 ↔ c ∈ T.columns
  constructor
  · intro hc
    rcases addColumns_mem _ _ _ _ _ _ hc with h1 | ⟨f, hf, rfl, hmiss⟩
    · exact (List.mem_filter.1 h1).1
    · obtain ⟨c0, hc0, hn0⟩ := hK f hf
      have hty0 : c0.type = ty := by
        by_contra hne
        exact hmiss ⟨c0, List.mem_filter.2 ⟨hc0, by simpa using hne⟩, hn0⟩
      have hcn : c0.name = col := (hE.1 c0 hc0 hty0).2
      have hff : f = f0 := hfields f hf (Or.inr (by rw [← hn0, hcn]))
      subst hff
      have : f.column = c0 := by
        rw [hf0]
        cases c0
        simp only [Column.mk.injEq]
        exact ⟨hcn.symm, hty0.symm⟩
      rw [this]; exact hc0
  · intro hc
    by_cases hty : c.type = ty
    · have hcn : c.name = col := (hE.1 c hc hty).2
      have hc' : c = f0.column := by
        rw [hf0]
        cases c
        simp only [Column.mk.injEq]
        exact ⟨hcn, hty⟩
      rw [hc']
      apply addColumns_adds u _ _ _ (settled_types hu m) (settled_rows hu m) f0
        (fun f hf hn => hfields f hf (Or.inr (by rw [hn, hcol]))) hf0m
      rintro ⟨c1, hc1, hn1⟩
      have hmem := List.mem_filter.1 hc1
      have : c1.type = ty := hE.2 ⟨c, hc, hty⟩ c1 hmem.1 (by rw [hn1, hcol])
      simpa [this] using hmem.2
    · exact addColumns_subset _ _ _ _ _ _ (List.mem_filter.2 ⟨hc, by simpa using hty⟩)

theorem rerunTable_name (u1 u2 u3 u4 : PgState) (T : Table) :
    (rerunTable u1 u2 u3 u4 T).name = T.name := by
  simp only [rerunTable, migrateTable_name, dropColumns_name]

theorem rerunTable_columns {u1 u2 u3 u4 : PgState} (h3 : Settled u3) (h4 : Settled u4)
    {T : Table} (hJ : EnumColumnsOk T)
    (hK : ∀ m : Model, T.name = m.table → ∀ f ∈ m.fields, ∃ c ∈ T.columns, c.name = f.dbName)
    (c : Column) : c ∈ (rerunTable u1 u2 u3 u4 T).columns ↔ c ∈ T.columns := by
  unfold rerunTable
  by_cases hV : T.name = "asset_values"
  · have hnoR : ∀ c ∈ (dropColumns "granularity" T).columns, c.type ≠ "record_type" := by
      intro c hc hty
      have := (hJ.2.1 c (List.mem_filter.1 hc).1 hty).1
      rw [hV] at this
      exact absurd this (by decide)
    rw [dropColumns_of_none hnoR,
      migrateTable_of_ne (m := .Account) (by rw [dropColumns_name, hV]; decide),
      migrateTable_of_ne (m := .Asset) (by rw [dropColumns_name, hV]; decide),
      migrateTable_of_ne (m := .Record) (by rw [migrateTable_name, dropColumns_name, hV]; decide)]
    exact readd_columns h3 granularityField_mem (by decide)
      (fun f hf h => (fields_granularity _ f hf h).2) hV hJ.1 (hK .AssetValue hV) c
  · have hnoG : ∀ c ∈ T.columns, c.type ≠ "granularity" :=
      fun c hc hty => hV (hJ.1.1 c hc hty).1
    rw [dropColumns_of_none hnoG]
    by_cases hR : T.name = "records"
    · rw [migrateTable_of_ne (m := .Account) (by rw [dropColumns_name, hR]; decide),
        migrateTable_of_ne (m := .Asset) (by rw [dropColumns_name, hR]; decide),
        migrateTable_of_ne (m := .AssetValue) (by rw [dropColumns_name, hR]; decide)]
      exact readd_columns h4 typeField_mem (by decide)
        (fun f hf h => (fields_record_type _ f hf h).2) hR hJ.2 (hK .Record hR) c
    · have hnoR : ∀ c ∈ T.columns, c.type ≠ "record_type" :=
        fun c hc hty => hR (hJ.2.1 c hc hty).1
      rw [dropColumns_of_none hnoR, migrateTable_id (hK .Account), migrateTable_id (hK .Asset),
        migrateTable_id (hK .AssetValue), migrateTable_id (hK .Record)]

theorem hasTable_pgAutoMigrate {u : PgState} (hu : Settled u) (m m' : Model)
    (h : ∃ T ∈ u.tables, T.name = m.table) :
    ∃ T ∈ (pgAutoMigrate u m').1.tables, T.name = m.table := by
  obtain ⟨T, hT, hn⟩ := h
  by_cases hex : ∃ T ∈ u.tables, T.name = m'.table
  · rw [pgAutoMigrate_of_exists hu m' hex]
    exact ⟨migrateTable u m' T, List.mem_map_of_mem _ hT, by rw [migrateTable_name, hn]⟩
  · rw [pgAutoMigrate_of_not_exists hu m' hex]
    exact ⟨T, List.mem_append_left _ hT, hn⟩

theorem hasTable_afterTypes {s : PgState} (m : Model) (h : ∃ T ∈ s.tables, T.name = m.table) :
    ∃ T ∈ (afterTypes s).tables, T.name = m.table := by
  obtain ⟨T, hT, hn⟩ := h
  rw [afterTypes_tables]
  exact ⟨_, List.mem_map_of_mem _ hT, hn⟩

/-- What one `CreateTables` leaves, on a store whose two tables with an enum
column have no rows. -/
theorem CreateTables_pg_facts {s : PgState} (h : s.assetValues = [] ∧ s.records = []) :
    Settled (CreateTables pg s) ∧ (∀ T ∈ (CreateTables pg s).tables, EnumColumnsOk T) ∧
    ∀ m : Model, Complete (CreateTables pg s) m := by
  rw [CreateTables_pg]
  have h0 := afterTypes_settled h
  have h1 := (pgAutoMigrate_settled h0 .Account).1
  have h2 := (pgAutoMigrate_settled h1 .Asset).1
  have h3 := (pgAutoMigrate_settled h2 .AssetValue).1
  have h4 := (pgAutoMigrate_settled h3 .Record).1
  refine ⟨h4, ?_, ?_⟩
  · exact EnumColumnsOk_pgAutoMigrate h3 _ (EnumColumnsOk_pgAutoMigrate h2 _
      (EnumColumnsOk_pgAutoMigrate h1 _ (EnumColumnsOk_pgAutoMigrate h0 _
        (EnumColumnsOk_afterTypes s))))
  · intro m
    cases m with
    | Account =>
      exact Complete_pgAutoMigrate_mono h3 _ _ (Complete_pgAutoMigrate_mono h2 _ _
        (Complete_pgAutoMigrate_mono h1 _ _ (Complete_pgAutoMigrate_self h0 _)))
    | Asset =>
      exact Complete_pgAutoMigrate_mono h3 _ _ (Complete_pgAutoMigrate_mono h2 _ _
        (Complete_pgAutoMigrate_self h1 _))
    | AssetValue => exact Complete_pgAutoMigrate_mono h3 _ _ (Complete_pgAutoMigrate_self h2 _)
    | Record => exact Complete_pgAutoMigrate_self h3 _

/-- No command of a `CreateTables` fails on such a store. -/
theorem CreateTables_pg_journal {s : PgState} (h : s.assetValues = [] ∧ s.records = []) :
    ∀ entry ∈ (CreateTables (traced pg) (s, [])).2, entry.2 = none := by
  have h0 := afterTypes_settled h
  have h1 := pgAutoMigrate_settled h0 .Account
  have h2 := pgAutoMigrate_settled h1.1 .Asset
  have h3 := pgAutoMigrate_settled h2.1 .AssetValue
  have h4 := pgAutoMigrate_settled h3.1 .Record
  have hj : (CreateTables (traced pg) (s, [])).2.map Prod.snd =
      [none, none, none, none, (pgAutoMigrate (afterTypes s) .Account).2,
       (pgAutoMigrate (pgAutoMigrate (afterTypes s) .Account).1 .Asset).2,
       (pgAutoMigrate (pgAutoMigrate (pgAutoMigrate (afterTypes s) .Account).1 .Asset).1
          .AssetValue).2,
       (pgAutoMigrate (pgAutoMigrate (pgAutoMigrate (pgAutoMigrate (afterTypes s)
          .Account).1 .Asset).1 .AssetValue).1 .Record).2] := by
    simp only [CreateTables, traced, pg, pgExec, parseSql_drop_granularity,
      parseSql_drop_record_type, parseSql_create_granularity, parseSql_create_record_type,
      createEnum_after_drop, afterTypes, List.nil_append, List.cons_append, List.map_cons,
      List.map_nil, Option.map_none']
  rw [h1.2, h2.2, h3.2, h4.2] at hj
  intro entry hentry
  have : entry.2 ∈ (CreateTables (traced pg) (s, [])).2.map Prod.snd :=
    List.mem_map_of_mem _ hentry
  rw [hj] at this
  simpa using this

/-- The tables a `CreateTables` leaves on a store that has the four tables. -/
theorem CreateTables_pg_tables {t : PgState} (h : t.assetValues = [] ∧ t.records = [])
    (hex : ∀ m : Model, ∃ T ∈ t.tables, T.name = m.table) :
    ∃ u1 u2 u3 u4, Settled u3 ∧ Settled u4 ∧
      (CreateTables pg t).tables = t.tables.map (rerunTable u1 u2 u3 u4) := by
  have h0 := afterTypes_settled h
  have h1 := (pgAutoMigrate_settled h0 .Account).1
  have h2 := (pgAutoMigrate_settled h1 .Asset).1
  have h3 := (pgAutoMigrate_settled h2 .AssetValue).1
  have e0 := fun m => hasTable_afterTypes m (hex m)
  have e1 := fun m => hasTable_pgAutoMigrate h0 m .Account (e0 m)
  have e2 := fun m => hasTable_pgAutoMigrate h1 m .Asset (e1 m)
  have e3 := fun m => hasTable_pgAutoMigrate h2 m .AssetValue (e2 m)
  refine ⟨afterTypes t, (pgAutoMigrate (afterTypes t) .Account).1,
    (pgAutoMigrate (pgAutoMigrate (afterTypes t) .Account).1 .Asset).1,
    (pgAutoMigrate (pgAutoMigrate (pgAutoMigrate (afterTypes t) .Account).1 .Asset).1
      .AssetValue).1, h2, h3, ?_⟩
  rw [CreateTables_pg]
  have t1 : (pgAutoMigrate (afterTypes t) .Account).1.tables =
      (afterTypes t).tables.map (migrateTable (afterTypes t) .Account) := by
    rw [pgAutoMigrate_of_exists h0 _ (e0 _)]
  have t2 : (pgAutoMigrate (pgAutoMigrate (afterTypes t) .Account).1 .Asset).1.tables = _ :=
    congrArg (fun x => x.1.tables) (pgAutoMigrate_of_exists h1 .Asset (e1 _))
  have t3 : (pgAutoMigrate (pgAutoMigrate (pgAutoMigrate (afterTypes t) .Account).1
      .Asset).1 .AssetValue).1.tables = _ :=
    congrArg (fun x => x.1.tables) (pgAutoMigrate_of_exists h2 .AssetValue (e2 _))
  have t4 : (pgAutoMigrate (pgAutoMigrate (pgAutoMigrate (pgAutoMigrate (afterTypes t)
      .Account).1 .Asset).1 .AssetValue).1 .Record).1.tables = _ :=
    congrArg (fun x => x.1.tables) (pgAutoMigrate_of_exists h3 .Record (e3 _))
  rw [t4]
  simp only [t3, t2, t1, afterTypes_tables, List.map_map]
  rfl

theorem tableReady_of_complete {u : PgState} {m : Model} (h : Complete u m) :
    tableReady u m = none := by
  unfold tableReady
  split
  · next hnone => exact absurd h.1 (find_table_eq_none.1 hnone)
  · next T hT =>
    have hmem : T ∈ u.tables := List.mem_of_find?_eq_some hT
    have hname : T.name = m.table := by simpa using List.find?_some hT
    have hall : (m.fields.find? fun f => ¬ ∃ c ∈ T.columns, c.name = f.dbName) = none := by
      rw [List.find?_eq_none]
      intro f hf
      simpa using h.2 T hmem hname f hf
    simp only [hall]

theorem CreateTables_pg_frame (s : PgState) :
    (CreateTables pg s).accounts = s.accounts ∧ (CreateTables pg s).assets = s.assets := by
  rw [CreateTables_pg]
  simp only [(pgAutoMigrate_rows _ _).1, (pgAutoMigrate_rows _ _).2.1]
  exact ⟨rfl, rfl⟩

theorem CreateTables_pg_counters (s : PgState) :
    (CreateTables pg s).accountsSeq = s.accountsSeq ∧
    (CreateTables pg s).assetsSeq = s.assetsSeq ∧
    (CreateTables pg s).assetValuesSeq = s.assetValuesSeq ∧
    (CreateTables pg s).recordsSeq = s.recordsSeq ∧ (CreateTables pg s).clock = s.clock := by
  rw [CreateTables_pg]
  simp only [(pgAutoMigrate_counters _ _).1, (pgAutoMigrate_counters _ _).2.1,
    (pgAutoMigrate_counters _ _).2.2.1, (pgAutoMigrate_counters _ _).2.2.2.1,
    (pgAutoMigrate_counters _ _).2.2.2.2]
  exact ⟨rfl, rfl, rfl, rfl, rfl⟩

/-- C9, as the code has it: on a store whose tables with an enum column
(`asset_values`, `records`) hold no rows, a second `CreateTables` right after a
first one succeeds, every one of its eight commands coming back without an
error, and leaves the schema of the first run but for the order of columns:
the same enum types with the same labels, the same tables in the same order,
each with the same set of columns, the same rows, sequences and clock; the four
tables `accounts`, `assets`, `asset_values`, `records` are there with a column
for each field, and so are the enum types `granularity` and `record_type`.  The
order of the columns of a table is not kept: the two enum columns are dropped
with their type and added again, which puts them last. -/
theorem CreateTables_twice_same_columns (s : PgState)
    (h : s.assetValues = [] ∧ s.records = []) :
    (∀ entry ∈ (CreateTables (traced pg) (CreateTables pg s, [])).2, entry.2 = none) ∧
    (CreateTables pg (CreateTables pg s)).enums = (CreateTables pg s).enums ∧
    List.Forall₂ (fun T2 T1 => T2.name = T1.name ∧ ∀ c, c ∈ T2.columns ↔ c ∈ T1.columns)
      (CreateTables pg (CreateTables pg s)).tables (CreateTables pg s).tables ∧
    ((CreateTables pg (CreateTables pg s)).accounts = (CreateTables pg s).accounts ∧
      (CreateTables pg (CreateTables pg s)).assets = (CreateTables pg s).assets ∧
      (CreateTables pg (CreateTables pg s)).assetValues = (CreateTables pg s).assetValues ∧
      (CreateTables pg (CreateTables pg s)).records = (CreateTables pg s).records) ∧
    (∀ m : Model, tableReady (CreateTables pg s) m = none ∧
      tableReady (CreateTables pg (CreateTables pg s)) m = none) ∧
    (enumLabels (CreateTables pg (CreateTables pg s)) "granularity"
        = some ["1sec", "1min", "5min", "1hour", "1day", "1week", "1month", "1year"] ∧
      enumLabels (CreateTables pg (CreateTables pg s)) "record_type"
        = some ["deposit", "withdraw", "balance_adjustment"]) ∧
    ((CreateTables pg (CreateTables pg s)).accountsSeq = (CreateTables pg s).accountsSeq ∧
      (CreateTables pg (CreateTables pg s)).assetsSeq = (CreateTables pg s).assetsSeq ∧
      (CreateTables pg (CreateTables pg s)).assetValuesSeq = (CreateTables pg s).assetValuesSeq ∧
      (CreateTables pg (CreateTables pg s)).recordsSeq = (CreateTables pg s).recordsSeq ∧
      (CreateTables pg (CreateTables pg s)).clock = (CreateTables pg s).clock) := by
  obtain ⟨hset, hJ, hK⟩ := CreateTables_pg_facts h
  have h1 : (CreateTables pg s).assetValues = [] ∧ (CreateTables pg s).records = [] :=
    ⟨hset.2.2.1, hset.2.2.2⟩
  obtain ⟨hset2, -, hK2⟩ := CreateTables_pg_facts h1
  refine ⟨CreateTables_pg_journal h1, ?_, ?_, ?_, fun m =>
    ⟨tableReady_of_complete (hK m), tableReady_of_complete (hK2 m)⟩,
    CreateTables_pg_enumLabels _, CreateTables_pg_counters _⟩
  · rw [CreateTables_pg_enums (CreateTables pg s), CreateTables_pg_enums s]
    simp only [List.filter_append, List.filter_filter, List.append_assoc]
    have hnil : (List.filter
        (fun e : String × List String => decide (e.1 ≠ "granularity" ∧ e.1 ≠ "record_type"))
        [("granularity", granularityLabels), ("record_type", recordTypeLabels)]) = [] := by
      decide
    rw [hnil, List.nil_append]
    congr 1
    apply List.filter_congr
    intro e _
    simp
  · obtain ⟨u1, u2, u3, u4, h3, h4, htab⟩ := CreateTables_pg_tables h1 fun m => (hK m).1
    rw [htab, List.forall₂_map_left_iff, List.forall₂_same]
    intro T hT
    exact ⟨rerunTable_name _ _ _ _ T,
      fun c => rerunTable_columns h3 h4 (hJ T hT) (fun m hn => (hK m).2 T hT hn) c⟩
  · refine ⟨(CreateTables_pg_frame _).1, (CreateTables_pg_frame _).2, ?_, ?_⟩
    · rw [hset2.2.2.1, hset.2.2.1]
    · rw [hset2.2.2.2, hset.2.2.2]

/-! ## Theorems: `InsertAsset` after a first asset -/

theorem pgCreateAccount_assets (s : PgState) (a : Account) :
    (pgCreateAccount s a).1.assets = s.assets := by
  unfold pgCreateAccount
  repeat' split
  all_goals rfl

theorem pgSaveAccount_assets (s : PgState) (a : Account) :
    (pgSaveAccount s a).1.assets = s.assets := by
  unfold pgSaveAccount
  repeat' split
  all_goals first
    | rfl
    | exact pgCreateAccount_assets s a

theorem pgCreateAsset_keeps_blank {s : PgState} (a : Asset) (h : HasBlankSymbol s) :
    HasBlankSymbol (pgCreateAsset s a).1 := by
  obtain ⟨r, hr, hb⟩ := h
  unfold pgCreateAsset
  repeat' split
  all_goals first
    | exact ⟨r, hr, hb⟩
    | exact ⟨r, List.mem_append_left _ hr, hb⟩

theorem pgSaveAsset_keeps_blank {s : PgState} {a : Asset} (ha : a.Symbol = "")
    (h : HasBlankSymbol s) : HasBlankSymbol (pgSaveAsset s a).1 := by
  unfold pgSaveAsset
  split
  · exact pgCreateAsset_keeps_blank a h
  · split
    · exact h
    · split
      · split
        · exact h
        · obtain ⟨r, hr, hb⟩ := h
          by_cases hid : r.ID = a.ID
          · exact ⟨a, List.mem_map.2 ⟨r, hr, by simp [hid]⟩, ha⟩
          · exact ⟨r, List.mem_map.2 ⟨r, hr, by simp [hid]⟩, hb⟩
      · exact pgCreateAsset_keeps_blank a h

theorem pgInsertRecord_assets (s : PgState) (r : Record) :
    (pgInsertRecord s r).1.assets = s.assets := by
  unfold pgInsertRecord
  repeat' split
  all_goals rfl

theorem pgSaveRefs_keeps_blank {s : PgState} {r : Record} (ha : r.Asset.Symbol = "")
    (h : HasBlankSymbol s) : HasBlankSymbol (pgSaveRefs s r).1 := by
  have hacc : HasBlankSymbol
      (if r.Account = Account.zero then (s, r.Account, none)
        else pgSaveAccount s r.Account).1 := by
    split
    · exact h
    · obtain ⟨x, hx, hb⟩ := h
      exact ⟨x, by rw [pgSaveAccount_assets]; exact hx, hb⟩
  unfold pgSaveRefs
  simp only
  split
  · exact hacc
  · split
    · exact pgSaveAsset_keeps_blank ha hacc
    · exact hacc

theorem pgCreateRecord_keeps_blank {s : PgState} {r : Record} (ha : r.Asset.Symbol = "")
    (h : HasBlankSymbol s) : HasBlankSymbol (pgCreateRecord s r).1 := by
  unfold pgCreateRecord
  split
  · split
    · obtain ⟨x, hx, hb⟩ := pgSaveRefs_keeps_blank ha h
      exact ⟨x, by rw [pgInsertRecord_assets]; exact hx, hb⟩
    · exact h
  · exact h

theorem Call_run_keeps_blank {s : PgState} (c : Call) (hc : c.blankSymbol)
    (h : HasBlankSymbol s) : HasBlankSymbol (c.run pg s) := by
  cases c with
  | insertAsset n d => exact pgCreateAsset_keeps_blank _ h
  | insertAccount n =>
    obtain ⟨x, hx, hb⟩ := h
    exact ⟨x, by
      show x ∈ (pgCreateAccount s ⟨0, n⟩).1.assets
      rw [pgCreateAccount_assets]; exact hx, hb⟩
  | insertRecord a ast t c q =>
    exact pgCreateRecord_keeps_blank (r := ⟨0, a, 0, ast, 0, t, c, q⟩) hc h
  | createTables =>
    obtain ⟨x, hx, hb⟩ := h
    exact ⟨x, by
      show x ∈ (CreateTables pg s).assets
      rw [(CreateTables_pg_frame s).2]; exact hx, hb⟩

theorem runCalls_keeps_blank (calls : List Call) :
    ∀ s : PgState, (∀ c ∈ calls, c.blankSymbol) → HasBlankSymbol s →
      HasBlankSymbol (runCalls pg s calls) := by
  induction calls with
  | nil => intro s _ h; exact h
  | cons c rest ih =>
    intro s hc h
    exact ih (c.run pg s) (fun c' hc' => hc c' (List.mem_cons_of_mem _ hc'))
      (Call_run_keeps_blank c (hc c (List.mem_cons_self _ _)) h)

/-- C10, as the code has it: `InsertAsset` hands `Create` an asset with empty
`Symbol` and `ISIN` on every handle, and on `pg` returns one.  So over `pg`,
which enforces the unique indexes on `Asset.Symbol` and `Asset.ISIN` with the
empty string an ordinary value: after one successful `InsertAsset`, and after
any calls of `InsertAsset`, `InsertAccount`, `InsertRecord` and `CreateTables`
that follow it in which no `InsertRecord` is handed an asset struct with a
non-empty `Symbol`, every `InsertAsset` returns a non-empty error list, whatever
its name, and leaves the store as it was. -/
theorem InsertAsset_blocked_by_blank_symbol (s : PgState) (n1 d1 : String) (calls : List Call)
    (n d : String) (h : (InsertAsset pg s n1 d1).2.2 = [])
    (hcalls : ∀ c ∈ calls, c.blankSymbol) :
    (∀ (σ : Type) (Raw : Gorm σ) (db : σ) (n d : String),
      InsertAsset Raw db n d =
        ((Raw.CreateAsset db ⟨0, n, "", "", d⟩).1, (Raw.CreateAsset db ⟨0, n, "", "", d⟩).2.1,
         GetErrors (Raw.CreateAsset db ⟨0, n, "", "", d⟩).2.2)) ∧
    (∀ (t : PgState) (n d : String),
      (InsertAsset pg t n d).2.1.Symbol = "" ∧ (InsertAsset pg t n d).2.1.ISIN = "") ∧
    (InsertAsset pg (runCalls pg (InsertAsset pg s n1 d1).1 calls) n d).2.2 ≠ [] ∧
    (InsertAsset pg (runCalls pg (InsertAsset pg s n1 d1).1 calls) n d).1 =
      runCalls pg (InsertAsset pg s n1 d1).1 calls := by
  refine ⟨fun _ _ _ _ _ => rfl, fun t n d => ⟨(InsertAsset_pg_blank t n d).1,
    (InsertAsset_pg_blank t n d).2.1⟩, ?_⟩
  obtain ⟨-, -, -, hins⟩ := InsertAsset_pg_success h
  have h1 : HasBlankSymbol (InsertAsset pg s n1 d1).1 := by
    rw [hins]; exact ⟨⟨s.assetsSeq + 1, n1, "", "", d1⟩, by simp, rfl⟩
  exact InsertAsset_pg_blocked n d (runCalls_keeps_blank calls _ hcalls h1)

/-! ## The theorems at concrete stores -/

/-- C4 on the fresh store, with the example of the specification. -/
theorem InsertAsset_then_GetAssetByName_witness :
    (InsertAsset pg freshStore "AMZN-co" "desc").2.2 = [] ∧
    (GetAssetByName pg (InsertAsset pg freshStore "AMZN-co" "desc").1 "AMZN-co").2 = none ∧
    (GetAssetByName pg (InsertAsset pg freshStore "AMZN-co" "desc").1 "AMZN-co").1.Name
      = "AMZN-co" :=
  have h := InsertAsset_then_GetAssetByName freshStore "AMZN-co" "desc" (by decide)
  ⟨by decide, h.1, h.2.1⟩

/-- C5 on the fresh store. -/
theorem InsertAsset_duplicate_name_rejected_witness :
    (InsertAsset pg freshStore "NVDA-co" "first").2.2 = [] ∧
    (InsertAsset pg (InsertAsset pg freshStore "NVDA-co" "first").1 "NVDA-co" "second").1
      = (InsertAsset pg freshStore "NVDA-co" "first").1 :=
  ⟨by decide,
   (InsertAsset_duplicate_name_rejected freshStore "NVDA-co" "first" "second" (by decide)).2.1⟩

/-- C6 fails for the zero time: in `ledgerStore`, which holds the account
`alice` and the asset `amzn`, `InsertRecord` with `createdAt` the zero time
succeeds and returns a record whose `CreatedAt` is the store's clock, not the
zero time handed in. -/
theorem InsertRecord_zero_time_replaced :
    alice ∈ ledgerStore.accounts ∧ amzn ∈ ledgerStore.assets ∧ alice.ID ≠ 0 ∧ amzn.ID ≠ 0 ∧
    (InsertRecord pg ledgerStore alice amzn RecordType.DEPOSIT Time.zero 100).2.2 = [] ∧
    (InsertRecord pg ledgerStore alice amzn RecordType.DEPOSIT Time.zero 100).2.1.CreatedAt
      = ledgerStore.clock ∧
    (InsertRecord pg ledgerStore alice amzn RecordType.DEPOSIT Time.zero 100).2.1.CreatedAt
      ≠ Time.zero := by
  decide

/-- C6, amended, in `ledgerStore` with the example of the specification. -/
theorem InsertRecord_links_rows_witness :
    (alice.ID ≠ 0 ∧ amzn.ID ≠ 0 ∧ (⟨1700000000⟩ : Time) ≠ Time.zero) ∧
    (InsertRecord pg ledgerStore alice amzn RecordType.DEPOSIT ⟨1700000000⟩ 100).2.1.AccountID
      = alice.ID ∧
    (InsertRecord pg ledgerStore alice amzn RecordType.DEPOSIT ⟨1700000000⟩ 100).2.1.AssetID
      = amzn.ID :=
  have h := InsertRecord_links_rows ledgerStore alice amzn RecordType.DEPOSIT ⟨1700000000⟩ 100
    (by decide) (by decide) (by decide)
  ⟨by decide, h.2.2.2.2.2.1, h.2.2.2.2.2.2.1⟩

/-- C9, amended, on the store that holds one asset and one account. -/
theorem CreateTables_twice_same_columns_witness :
    (ledgerStore.assetValues = [] ∧ ledgerStore.records = []) ∧
    (CreateTables pg (CreateTables pg ledgerStore)).enums = (CreateTables pg ledgerStore).enums ∧
    ∀ entry ∈ (CreateTables (traced pg) (CreateTables pg ledgerStore, [])).2, entry.2 = none :=
  have h := CreateTables_twice_same_columns ledgerStore (by decide)
  ⟨by decide, h.2.1, h.1⟩

/-- C9 fails on `pg` as an equality of schemas: on the empty store the tables
after two runs are not the tables after one; the second run drops the columns
`asset_values.granularity` and `records.type` with their types and adds them
again, which puts them last. -/
theorem CreateTables_twice_reorders_columns :
    (PgState.empty.assetValues = [] ∧ PgState.empty.records = []) ∧
    (CreateTables pg (CreateTables pg PgState.empty)).tables ≠
      (CreateTables pg PgState.empty).tables ∧
    CreateTables pg (CreateTables pg PgState.empty) ≠ CreateTables pg PgState.empty ∧
    ((CreateTables pg PgState.empty).tables.map fun T => T.columns.getLast?.map Column.name) =
      [some "name", some "description", some "volume", some "quantity"] ∧
    ((CreateTables pg (CreateTables pg PgState.empty)).tables.map
        fun T => T.columns.getLast?.map Column.name) =
      [some "name", some "description", some "granularity", some "type"] := by
  decide

/-- C10 fails on `pg`: on the fresh store `InsertAsset("A", "a")` succeeds; then
`InsertAccount("alice")` and an `InsertRecord` handed the asset struct with a
symbol written into it, which gorm saves, rewriting the row; after that
`InsertAsset("B", "b")` succeeds too, and `assets` holds two rows. -/
theorem InsertAsset_twice_after_symbol_rewrite :
    (InsertAsset pg freshStore "A" "a").2.2 = [] ∧
    (InsertAsset pg
      (runCalls pg (InsertAsset pg freshStore "A" "a").1
        [Call.insertAccount "alice",
         Call.insertRecord ⟨1, "alice"⟩ ⟨1, "A", "AAA", "US0000000001", "a"⟩
           RecordType.DEPOSIT ⟨1700000000⟩ 100]) "B" "b").2.2 = [] ∧
    (InsertAsset pg
      (runCalls pg (InsertAsset pg freshStore "A" "a").1
        [Call.insertAccount "alice",
         Call.insertRecord ⟨1, "alice"⟩ ⟨1, "A", "AAA", "US0000000001", "a"⟩
           RecordType.DEPOSIT ⟨1700000000⟩ 100]) "B" "b").1.assets =
      [⟨1, "A", "AAA", "US0000000001", "a"⟩, ⟨2, "B", "", "", "b"⟩] := by
  decide

/-- C10, amended, on the fresh store: an account, a record for the asset as
`InsertAsset` returned it and a second `CreateTables` in between. -/
theorem InsertAsset_blocked_by_blank_symbol_witness :
    ((InsertAsset pg freshStore "AMZN-co" "desc").2.2 = [] ∧
      ∀ c ∈ [Call.insertAccount "alice",
          Call.insertRecord ⟨1, "alice"⟩ ⟨1, "AMZN-co", "", "", "desc"⟩
            RecordType.DEPOSIT ⟨1700000000⟩ 100,
          Call.insertAsset "NVDA-co" "chips", Call.createTables], c.blankSymbol) ∧
    (InsertAsset pg
      (runCalls pg (InsertAsset pg freshStore "AMZN-co" "desc").1
        [Call.insertAccount "alice",
         Call.insertRecord ⟨1, "alice"⟩ ⟨1, "AMZN-co", "", "", "desc"⟩
           RecordType.DEPOSIT ⟨1700000000⟩ 100,
         Call.insertAsset "NVDA-co" "chips", Call.createTables]) "TSLA-co" "cars").2.2 ≠ [] :=
  ⟨⟨by decide, by decide⟩,
   (InsertAsset_blocked_by_blank_symbol freshStore "AMZN-co" "desc"
      [Call.insertAccount "alice",
       Call.insertRecord ⟨1, "alice"⟩ ⟨1, "AMZN-co", "", "", "desc"⟩
         RecordType.DEPOSIT ⟨1700000000⟩ 100,
       Call.insertAsset "NVDA-co" "chips", Call.createTables] "TSLA-co" "cars"
      (by decide) (by decide)).2.2.1⟩

end Finance
